import Mathlib

/-!
# Crawl orchestration loop of `crawler.js`

A shallow embedding of `src/crawler.js` and `src/utils/file.js`.

* JavaScript objects used as URL-keyed maps (`metaData`, `failures`) are association
  lists in property-enumeration order.  Values are records (objects), so the
  truthiness test `obj[url]` is the presence test.
* Everything the program observes from outside (the browser, the clock, the WHATWG URL
  parser) is supplied by an `Env`: for the `i`-th loop iteration and its URL a
  `PageScript` lists what each awaited browser call does (resolve or reject with a
  message) and what each clock read returns.
* File names produced by `path.join(dir, domain + ".png")` are kept as a pair
  `(dir, name)`; `path.dirname`, `path.extname`, `path.basename` act on that pair.
* `JSON.stringify` followed by `JSON.parse` is the identity on these records, so the two
  JSON documents are stored as the maps themselves (`none` = file missing).
* `puppeteer.launch`, `browser.close`, `ensureDir`, `fs.writeFileSync` and
  `fs.renameSync` are taken to succeed, and a screenshot call that rejects is taken to
  leave the files as they were; the timing fields of the report are left out.
* The loop reads and writes a map only under a key that `new URL` has accepted, so no
  key it touches is an array index or a property inherited from `Object.prototype`.
-/

namespace Crawler

/-! ## JavaScript objects as ordered key/value lists -/

/-- A JavaScript object whose own enumerable string keys map to values of type `α`. -/
abbrev JsObject (α : Type) := List (String × α)

namespace JsObject

variable {α : Type}

/-- Property read `o[k]`; `none` stands for `undefined`. -/
def get? : JsObject α → String → Option α
  | [], _ => none
  | (k', v) :: rest, k => if k' = k then some v else get? rest k

/-- Property write `o[k] = v`: an existing key keeps its position, a new key goes last. -/
def set : JsObject α → String → α → JsObject α
  | [], k, v => [(k, v)]
  | (k', v') :: rest, k, v => if k' = k then (k', v) :: rest else (k', v') :: set rest k v

/-- Property removal `delete o[k]`. -/
def delete (o : JsObject α) (k : String) : JsObject α :=
  o.filter (fun e => decide (e.1 ≠ k))

/-- The list `Object.keys(o)`. -/
def keys (o : JsObject α) : List String := o.map Prod.fst

/-- Truthiness of `o[k]` when the values are objects. -/
def has (o : JsObject α) (k : String) : Bool := (get? o k).isSome

end JsObject

/-! ## Paths (`path.join`, `path.dirname`, `path.extname`, `path.basename`) -/

/-- A file path `dir/name` whose last component `name` contains no separator. -/
structure Path where
  dir : String
  name : String
deriving DecidableEq, Repr

/-- The call `path.join(dir, file)` for a separator-free `file`. -/
def pathJoin (dir file : String) : Path := ⟨dir, file⟩

/-- The call `path.dirname(p)`. -/
def dirname (p : Path) : String := p.dir

/-- Index of the last dot of a component, if it has one. -/
def lastDot : List Char → Option Nat
  | [] => none
  | c :: cs =>
    match lastDot cs with
    | some i => some (i + 1)
    | none => if c = '.' then some 0 else none

/-- The call `path.extname` on a component: from the last dot to the end, and empty when
there is no dot, when the only dot is the first character, or when the component is `..`. -/
def extnameOf (name : String) : String :=
  match lastDot name.data with
  | none => ""
  | some 0 => ""
  | some (i + 1) => if name.data = ['.', '.'] then "" else String.mk (name.data.drop (i + 1))

/-- The call `path.extname(p)`. -/
def extname (p : Path) : String := extnameOf p.name

/-- The call `path.basename(p, ext)`: the last component with the suffix `ext` removed. -/
def basename (p : Path) (ext : String) : String :=
  if ext.length = 0 ∨ p.name.length < ext.length then p.name
  else if ext = p.name then ""
  else if ext.data.isSuffixOf p.name.data then
    String.mk (p.name.data.take (p.name.length - ext.length))
  else p.name

/-! ## Data model -/

/-- The object returned by the in-page metadata scrape. -/
structure Meta where
  title : String
  description : String
deriving DecidableEq, Repr

/-- The `screenshots` field of a metadata record. -/
structure Screenshots where
  pc : Path
  mobile : Path
deriving DecidableEq, Repr

/-- One entry of `metaData` (file `data/meta.json`). -/
structure MetadataRecord where
  url : String
  meta : Meta
  screenshots : Screenshots
  timestamp : String
deriving DecidableEq, Repr

/-- One entry of `failures` (file `data/failures.json`). -/
structure FailureRecord where
  url : String
  error : String
  timestamp : String
deriving DecidableEq, Repr

/-- The `summary` object of the execution report. -/
structure Summary where
  success : Nat
  skip : Nat
  fail : Nat
deriving DecidableEq, Repr

/-- The execution report written to `paths.reportFile` (timing fields left out). -/
structure Report where
  args : List String
  summary : Summary
deriving DecidableEq, Repr

/-- The `paths` section of the configuration. -/
structure Paths where
  pcScreenshotDir : String
  mobileScreenshotDir : String
  dataDir : String
  reportFile : String
  failuresFile : String
deriving DecidableEq, Repr

/-- The `paths` section of `utils/config.example.js`. -/
def examplePaths : Paths :=
  { pcScreenshotDir := "screenshots/pc"
    mobileScreenshotDir := "screenshots/mobile"
    dataDir := "data"
    reportFile := "data/report.json"
    failuresFile := "data/failures.json" }

/-- The list exported by `utils/urls.example.js`. -/
def exampleUrls : List String :=
  ["https://www.wikipedia.org/", "https://www.window-swap.com/", "https://zombo.com/"]

/-! ## The outside world -/

/-- What an awaited call does: resolve with a value, or reject with `Error(message)`. -/
inductive Await (α : Type) where
  | resolved (value : α)
  | rejected (message : String)
deriving DecidableEq, Repr

/-- The part of the loaded document the scrape reads: `document.title` and, per name, the
`content` of the first `meta[name=...]` and `meta[property=...]` element (`none` when no
such element exists). -/
structure Document where
  title : String
  metaByName : String → Option String
  metaByProperty : String → Option String

/-- Everything one loop iteration observes from the browser and the clock, in program
order. -/
structure PageScript where
  newPage : Await Unit
  goto : Await Unit
  waitImages : Await Unit
  evaluate : Await Document
  timestamp : String
  backupNowPc : Nat
  backupNowMobile : Nat
  setViewportPc : Await Unit
  screenshotPc : Await String
  setViewportMobile : Await Unit
  setUserAgent : Await Unit
  reload : Await Unit
  waitImagesMobile : Await Unit
  screenshotMobile : Await String
  close : Await Unit
  failTimestamp : String

/-- The environment of one process run. -/
structure Env where
  /-- The value `new URL(url).hostname`; `none` when the constructor throws `TypeError`. -/
  hostname : String → Option String
  /-- The behaviour met by loop iteration `i` on its URL. -/
  script : Nat → String → PageScript

/-- One line written to the console. -/
inductive LogLine where
  | nothingToRetry
  | retrying (urls : List String)
  | forcing (url : String)
  | fullUpdate
  | skipping (url : String)
  | crawling (url : String)
  | backedUp (backupPath : Path)
  | success (url : String)
  | failed (url : String) (message : String)
  | taskComplete (success skip fail : Nat)
deriving DecidableEq, Repr

/-- The files the program reads and writes. -/
structure Disk where
  /-- Content of `data/meta.json` (`dataFile` of `utils/file.js`). -/
  metaFile : Option (JsObject MetadataRecord)
  /-- Content of `paths.failuresFile`. -/
  failuresFile : Option (JsObject FailureRecord)
  /-- Content of `paths.reportFile`. -/
  reportFile : Option Report
  /-- Content of the screenshot files. -/
  files : Path → Option String

/-- The mutable state of the running process together with the disk. -/
structure State where
  metaData : JsObject MetadataRecord
  failures : JsObject FailureRecord
  success : Nat
  fail : Nat
  skip : Nat
  /-- Number of page contexts currently open in the browser. -/
  openPages : Nat
  browserOpen : Bool
  console : List LogLine
  disk : Disk

/-! ## Command-line arguments (`crawler.js` lines 61-66) -/

/-- The flag `args.includes("--all")`. -/
def forceAll (args : List String) : Bool := args.contains "--all"

/-- The flag `args.includes("--retry-failures")`. -/
def retryFailures (args : List String) : Bool := args.contains "--retry-failures"

/-- The index `args.indexOf("--update")`, which is `-1` when the flag is absent. -/
def updateIndex (args : List String) : Int :=
  if args.contains "--update" then (args.indexOf "--update" : Int) else -1

/-- The value `updateIndex !== -1 ? args[updateIndex + 1] : null`; `none` stands for both
`null` and `undefined`. -/
def updateUrl (args : List String) : Option String :=
  if updateIndex args ≠ -1 then args.get? (updateIndex args + 1).toNat else none

/-- JavaScript truthiness of a string that may be `null` or `undefined`. -/
def truthy : Option String → Bool
  | some s => decide (s ≠ "")
  | none => false

/-- The condition `!forceAll && !updateUrl && !retryFailures`, under which the skip check
of line 170 looks at `metaData[url]`. -/
def skipCheckActive (args : List String) : Bool :=
  !forceAll args && !truthy (updateUrl args) && !retryFailures args

/-- The target URL list of lines 150-163. -/
def targetUrls (args urls : List String) (failures : JsObject FailureRecord) : List String :=
  if retryFailures args then JsObject.keys failures
  else
    match updateUrl args with
    | some u => if u ≠ "" then [u] else urls
    | none => urls

/-! ## Persistent store (`utils/file.js`, `crawler.js` lines 123-127 and 266-272) -/

/-- The function `readJSON`: a missing data file reads as the empty object. -/
def readJSON (d : Disk) : JsObject MetadataRecord :=
  match d.metaFile with
  | none => []
  | some o => o

/-- The function `writeJSON`: the whole map replaces the data file. -/
def writeJSON (data : JsObject MetadataRecord) (d : Disk) : Disk :=
  { d with metaFile := some data }

/-- Loading `failures` (lines 125-127): a missing file reads as the empty object. -/
def readFailures (d : Disk) : JsObject FailureRecord :=
  match d.failuresFile with
  | none => []
  | some o => o

/-- Writing `paths.failuresFile` (lines 268-272). -/
def writeFailures (failures : JsObject FailureRecord) (d : Disk) : Disk :=
  { d with failuresFile := some failures }

/-- The call `fs.renameSync(oldPath, newPath)` on the screenshot files. -/
def renameSync (files : Path → Option String) (oldPath newPath : Path) : Path → Option String :=
  fun p => if p = newPath then files oldPath else if p = oldPath then none else files p

/-- A screenshot written by the browser to `p`. -/
def writeFile (files : Path → Option String) (p : Path) (content : String) :
    Path → Option String :=
  fun q => if q = p then some content else files q

/-! ## Backup utility (`crawler.js` lines 80-90) -/

/-- The backup destination computed by `makeBackupIfExists` at clock value `now`. -/
def backupPathOf (filePath : Path) (now : Nat) : Path :=
  let dir := dirname filePath
  let ext := extname filePath
  let base := basename filePath ext
  let backupName := base ++ "-backup-" ++ toString now ++ ext
  pathJoin dir backupName

/-- The function `makeBackupIfExists`, with `now` the value of `Date.now()`. -/
def makeBackupIfExists (filePath : Path) (now : Nat) (s : State) : State :=
  if (s.disk.files filePath).isSome then
    let backupPath := backupPathOf filePath now
    { s with
      disk := { s.disk with files := renameSync s.disk.files filePath backupPath }
      console := s.console ++ [LogLine.backedUp backupPath] }
  else s

/-! ## Metadata scrape (`crawler.js` lines 187-202) -/

/-- The in-page helper `getMeta(name)`:
`querySelector(meta[name])?.content || querySelector(meta[property])?.content || ""`. -/
def getMeta (doc : Document) (name : String) : String :=
  if truthy (doc.metaByName name) then (doc.metaByName name).getD ""
  else if truthy (doc.metaByProperty name) then (doc.metaByProperty name).getD ""
  else ""

/-- The value returned by the in-page function of lines 188-197. -/
def scrapeMeta (doc : Document) : Meta :=
  { title := doc.title
    description := getMeta doc "description" }

/-- The message of the error thrown at line 201. -/
def scrapeFailedMessage : String := "Failed to scrape meta information"

/-- The test `!meta.title && !meta.description` of line 200. -/
def metaIsEmpty (m : Meta) : Bool := decide (m.title = "") && decide (m.description = "")

/-! ## One loop iteration (`crawler.js` lines 166-273) -/

/-- The `try` block (lines 176-247).  The result is the state at the point where the block
ends, and the message of the error it threw, if any. -/
def tryBlock (paths : Paths) (retry : Bool) (sc : PageScript) (url domain : String)
    (s : State) : State × Option String :=
  let s := { s with console := s.console ++ [LogLine.crawling url] }
  match sc.newPage with
  | .rejected e => (s, some e)
  | .resolved _ =>
  let s := { s with openPages := s.openPages + 1 }
  match sc.goto with
  | .rejected e => (s, some e)
  | .resolved _ =>
  match sc.waitImages with
  | .rejected e => (s, some e)
  | .resolved _ =>
  match sc.evaluate with
  | .rejected e => (s, some e)
  | .resolved doc =>
  let meta := scrapeMeta doc
  if metaIsEmpty meta then (s, some scrapeFailedMessage)
  else
  let timestamp := sc.timestamp
  let pcFile := pathJoin paths.pcScreenshotDir (domain ++ ".png")
  let mobileFile := pathJoin paths.mobileScreenshotDir (domain ++ ".png")
  let s :=
    if retry then
      makeBackupIfExists mobileFile sc.backupNowMobile (makeBackupIfExists pcFile sc.backupNowPc s)
    else s
  match sc.setViewportPc with
  | .rejected e => (s, some e)
  | .resolved _ =>
  match sc.screenshotPc with
  | .rejected e => (s, some e)
  | .resolved pcImage =>
  let s := { s with disk := { s.disk with files := writeFile s.disk.files pcFile pcImage } }
  match sc.setViewportMobile with
  | .rejected e => (s, some e)
  | .resolved _ =>
  match sc.setUserAgent with
  | .rejected e => (s, some e)
  | .resolved _ =>
  match sc.reload with
  | .rejected e => (s, some e)
  | .resolved _ =>
  match sc.waitImagesMobile with
  | .rejected e => (s, some e)
  | .resolved _ =>
  match sc.screenshotMobile with
  | .rejected e => (s, some e)
  | .resolved mobileImage =>
  let s := { s with
    disk := { s.disk with files := writeFile s.disk.files mobileFile mobileImage } }
  let s := { s with
    metaData := JsObject.set s.metaData url
      { url := url, meta := meta, screenshots := { pc := pcFile, mobile := mobileFile },
        timestamp := timestamp } }
  let s := if JsObject.has s.failures url then
      { s with failures := JsObject.delete s.failures url } else s
  let s := { s with success := s.success + 1, console := s.console ++ [LogLine.success url] }
  match sc.close with
  | .rejected e => (s, some e)
  | .resolved _ => ({ s with openPages := s.openPages - 1 }, none)

/-- The `catch` block (lines 248-264) for an error with message `message`. -/
def catchBlock (sc : PageScript) (url message : String) (s : State) : State :=
  let s := { s with console := s.console ++ [LogLine.failed url message] }
  let s := if JsObject.has s.metaData url then
      { s with metaData := JsObject.delete s.metaData url } else s
  { s with
    failures := JsObject.set s.failures url
      { url := url, error := message, timestamp := sc.failTimestamp }
    fail := s.fail + 1 }

/-- The flush of lines 266-272. -/
def saveProgress (s : State) : State :=
  { s with disk := writeFailures s.failures (writeJSON s.metaData s.disk) }

/-- The `try`/`catch` statement followed by the flush (lines 176-272). -/
def visit (paths : Paths) (retry : Bool) (sc : PageScript) (url domain : String)
    (s : State) : State :=
  match tryBlock paths retry sc url domain s with
  | (s1, none) => saveProgress s1
  | (s1, some message) => saveProgress (catchBlock sc url message s1)

/-- The message of the `TypeError` thrown by `new URL(url)`. -/
def invalidUrlMessage : String := "Invalid URL"

/-- The body of the `for` loop for iteration number `i` (lines 167-272).  The error case is
the exception that leaves the loop: the one thrown by `new URL(url)` at line 167. -/
def loopBody (paths : Paths) (env : Env) (args : List String) (i : Nat) (url : String)
    (s : State) : Except String State :=
  match env.hostname url with
  | none => .error invalidUrlMessage
  | some domain =>
    if skipCheckActive args && JsObject.has s.metaData url then
      .ok { s with console := s.console ++ [LogLine.skipping url], skip := s.skip + 1 }
    else
      .ok (visit paths (retryFailures args) (env.script i url) url domain s)

/-- The `for` loop of lines 166-273 from iteration number `i` on.  The second component is
the message of the exception that ended the loop early, if any. -/
def forLoop (paths : Paths) (env : Env) (args : List String) :
    Nat → List String → State → State × Option String
  | _, [], s => (s, none)
  | i, url :: rest, s =>
    match loopBody paths env args i url s with
    | .error e => (s, some e)
    | .ok s1 => forLoop paths env args (i + 1) rest s1

/-! ## The program (`crawler.js` lines 122-292) -/

/-- How the process ends. -/
inductive Exit where
  /-- The async function ran to its end. -/
  | completed
  /-- The call `process.exit(0)` of line 155. -/
  | exitZero
  /-- The async function was left by an exception. -/
  | uncaught (message : String)
deriving DecidableEq, Repr

/-- The state in which the process ends, and how. -/
structure Outcome where
  exit : Exit
  state : State

/-- The state after lines 123-147: maps loaded, counters zero, browser launched. -/
def initialState (d : Disk) : State :=
  { metaData := readJSON d
    failures := readFailures d
    success := 0
    fail := 0
    skip := 0
    openPages := 0
    browserOpen := true
    console := []
    disk := d }

/-- The lines 275-291: close the browser, write the report, print the summary. -/
def finish (args : List String) (s : State) : State :=
  let s := { s with openPages := 0, browserOpen := false }
  let report : Report :=
    { args := args, summary := { success := s.success, skip := s.skip, fail := s.fail } }
  { s with
    disk := { s.disk with reportFile := some report }
    console := s.console ++ [LogLine.taskComplete s.success s.skip s.fail] }

/-- The announcement printed while the target list is chosen (lines 157, 160, 162). -/
def announce (args : List String) (targets : List String) (s : State) : State :=
  if retryFailures args then
    { s with console := s.console ++ [LogLine.retrying targets] }
  else
    match updateUrl args with
    | some u =>
      if u ≠ "" then { s with console := s.console ++ [LogLine.forcing u] }
      else if forceAll args then { s with console := s.console ++ [LogLine.fullUpdate] }
      else s
    | none =>
      if forceAll args then { s with console := s.console ++ [LogLine.fullUpdate] } else s

/-- The whole program: the async function of lines 122-292 run on command-line arguments
`args`, the configured list `urls` and the disk `d`. -/
def main (paths : Paths) (env : Env) (args urls : List String) (d : Disk) : Outcome :=
  let s := initialState d
  let targets := targetUrls args urls s.failures
  if retryFailures args && targets.isEmpty then
    { exit := .exitZero, state := { s with console := s.console ++ [LogLine.nothingToRetry] } }
  else
    match forLoop paths env args 0 targets (announce args targets s) with
    | (s1, some e) => { exit := .uncaught e, state := s1 }
    | (s1, none) => { exit := .completed, state := finish args s1 }

/-! ## Auxiliary definitions used in the statements -/

/-- The message of the error thrown inside the `try` block, read off the script alone. -/
def tryResult (sc : PageScript) : Option String :=
  match sc.newPage with
  | .rejected e => some e
  | .resolved _ =>
  match sc.goto with
  | .rejected e => some e
  | .resolved _ =>
  match sc.waitImages with
  | .rejected e => some e
  | .resolved _ =>
  match sc.evaluate with
  | .rejected e => some e
  | .resolved doc =>
  if metaIsEmpty (scrapeMeta doc) then some scrapeFailedMessage
  else
  match sc.setViewportPc with
  | .rejected e => some e
  | .resolved _ =>
  match sc.screenshotPc with
  | .rejected e => some e
  | .resolved _ =>
  match sc.setViewportMobile with
  | .rejected e => some e
  | .resolved _ =>
  match sc.setUserAgent with
  | .rejected e => some e
  | .resolved _ =>
  match sc.reload with
  | .rejected e => some e
  | .resolved _ =>
  match sc.waitImagesMobile with
  | .rejected e => some e
  | .resolved _ =>
  match sc.screenshotMobile with
  | .rejected e => some e
  | .resolved _ =>
  match sc.close with
  | .rejected e => some e
  | .resolved _ => none

/-- The metadata scraped on the page met by a script (empty when the scrape rejects). -/
def scrapedMeta (sc : PageScript) : Meta :=
  match sc.evaluate with
  | .resolved doc => scrapeMeta doc
  | .rejected _ => { title := "", description := "" }

/-- The metadata record written at lines 235-240. -/
def recordOf (paths : Paths) (sc : PageScript) (url domain : String) : MetadataRecord :=
  { url := url
    meta := scrapedMeta sc
    screenshots :=
      { pc := pathJoin paths.pcScreenshotDir (domain ++ ".png")
        mobile := pathJoin paths.mobileScreenshotDir (domain ++ ".png") }
    timestamp := sc.timestamp }

/-- Whether the `try` block gets as far as the writes of lines 235-246. -/
def reachesWrite (sc : PageScript) : Bool :=
  (tryResult { sc with close := .resolved () }).isNone

/-- The failure record written at lines 258-262. -/
def failureOf (sc : PageScript) (url message : String) : FailureRecord :=
  { url := url, error := message, timestamp := sc.failTimestamp }

/-- The command line carries `--update url`: its first `--update` is followed by the
non-empty argument `url`. -/
def UpdateGiven (args : List String) (url : String) : Prop :=
  ∃ pre post, args = pre ++ "--update" :: url :: post ∧ "--update" ∉ pre ∧ url ≠ ""

/-- A document with the given title and no description tag at all. -/
def titledDocument (title : String) : Document :=
  { title := title, metaByName := fun _ => none, metaByProperty := fun _ => none }

/-- A script in which every browser call resolves, on a page showing `doc`. -/
def resolvingScript (doc : Document) : PageScript :=
  { newPage := .resolved ()
    goto := .resolved ()
    waitImages := .resolved ()
    evaluate := .resolved doc
    timestamp := "2025-01-01T00:00:00.000Z"
    backupNowPc := 1735689600000
    backupNowMobile := 1735689600001
    setViewportPc := .resolved ()
    screenshotPc := .resolved "pc image"
    setViewportMobile := .resolved ()
    setUserAgent := .resolved ()
    reload := .resolved ()
    waitImagesMobile := .resolved ()
    screenshotMobile := .resolved "mobile image"
    close := .resolved ()
    failTimestamp := "2025-01-01T00:00:01.000Z" }

/-- A script whose navigation (`page.goto`) rejects with `message`. -/
def navigationFailure (message : String) : PageScript :=
  { resolvingScript (titledDocument "A") with goto := .rejected message }

/-- A URL parser that knows two hosts and rejects every other string. -/
def sampleHostname (url : String) : Option String :=
  if url = "https://a.test/" then some "a.test"
  else if url = "https://b.test/" then some "b.test"
  else none

/-- A disk on which no file exists yet. -/
def emptyDisk : Disk :=
  { metaFile := none, failuresFile := none, reportFile := none, files := fun _ => none }

/-- An environment in which every page loads and is titled `A`. -/
def friendlyEnv : Env :=
  { hostname := sampleHostname, script := fun _ _ => resolvingScript (titledDocument "A") }

/-- An environment in which every navigation times out. -/
def hostileEnv : Env :=
  { hostname := sampleHostname, script := fun _ _ => navigationFailure "Navigation timeout" }

/-- The rejection message of an awaited call, if it rejects. -/
def Await.message? {α : Type} : Await α → Option String
  | .resolved _ => none
  | .rejected e => some e

/-- The messages with which the browser calls after the metadata check (lines 215-247)
reject in a script. -/
def laterMessages (sc : PageScript) : List String :=
  [sc.setViewportPc.message?, sc.screenshotPc.message?, sc.setViewportMobile.message?,
    sc.setUserAgent.message?, sc.reload.message?, sc.waitImagesMobile.message?,
    sc.screenshotMobile.message?, sc.close.message?].filterMap id

/-- An environment in which every page loads with an empty title and no description. -/
def blankEnv : Env :=
  { hostname := sampleHostname, script := fun _ _ => resolvingScript (titledDocument "") }

/-- A script in which everything resolves except the final `page.close()`. -/
def closeFailure (message : String) : PageScript :=
  { resolvingScript (titledDocument "A") with close := .rejected message }

/-- An environment in which every page is scraped and captured but fails to close. -/
def stickyEnv : Env :=
  { hostname := sampleHostname, script := fun _ _ => closeFailure "Protocol error" }

/-- The screenshot files after `makeBackupIfExists filePath` run at clock value `now`. -/
def backupFiles (files : Path → Option String) (filePath : Path) (now : Nat) :
    Path → Option String :=
  if (files filePath).isSome then renameSync files filePath (backupPathOf filePath now)
  else files

/-- The PC screenshot destination of line 205. -/
def pcFileOf (paths : Paths) (domain : String) : Path :=
  pathJoin paths.pcScreenshotDir (domain ++ ".png")

/-- The mobile screenshot destination of line 206. -/
def mobileFileOf (paths : Paths) (domain : String) : Path :=
  pathJoin paths.mobileScreenshotDir (domain ++ ".png")

/-- A disk left by an earlier run in which `https://a.test/` failed, with an older PC
screenshot of that host still in place. -/
def failedOnceDisk : Disk :=
  { metaFile := some []
    failuresFile := some [("https://a.test/",
      { url := "https://a.test/", error := "Navigation timeout",
        timestamp := "2024-12-31T00:00:00.000Z" })]
    reportFile := none
    files := fun p =>
      if p = pathJoin "screenshots/pc" "a.test.png" then some "old pc image" else none }

/-- The in-memory maps are what the two JSON documents on disk hold. -/
def Synced (s : State) : Prop :=
  readJSON s.disk = s.metaData ∧ readFailures s.disk = s.failures

/-- No URL is a key of both maps. -/
def Exclusive (metaData : JsObject MetadataRecord) (failures : JsObject FailureRecord) :
    Prop :=
  ∀ u, ¬ (JsObject.has metaData u = true ∧ JsObject.has failures u = true)

/-- The URL `u` is a key of exactly one of the two maps. -/
def InExactlyOne (metaData : JsObject MetadataRecord) (failures : JsObject FailureRecord)
    (u : String) : Prop :=
  (JsObject.has metaData u = true ∧ JsObject.has failures u = false) ∨
  (JsObject.has metaData u = false ∧ JsObject.has failures u = true)

/-- A disk on which `https://b.test/` has both a metadata record and a failure record. -/
def overlappingDisk : Disk :=
  { metaFile := some [("https://b.test/",
      { url := "https://b.test/", meta := { title := "B", description := "" },
        screenshots :=
          { pc := pathJoin "screenshots/pc" "b.test.png"
            mobile := pathJoin "screenshots/mobile" "b.test.png" },
        timestamp := "2024-12-30T00:00:00.000Z" })]
    failuresFile := some [("https://b.test/",
      { url := "https://b.test/", error := "Navigation timeout",
        timestamp := "2024-12-31T00:00:00.000Z" })]
    reportFile := none
    files := fun _ => none }

/-- Whether the `try` block gets past the metadata check of line 200. -/
def passesCheck (sc : PageScript) : Bool :=
  match sc.newPage, sc.goto, sc.waitImages, sc.evaluate with
  | .resolved _, .resolved _, .resolved _, .resolved doc => !metaIsEmpty (scrapeMeta doc)
  | _, _, _, _ => false

/-- The console lines printed by the two backup calls of lines 210-211. -/
def backupLines (files : Path → Option String) (pc mob : Path) (t1 t2 : Nat) :
    List LogLine :=
  (if (files pc).isSome then [LogLine.backedUp (backupPathOf pc t1)] else []) ++
  (if (backupFiles files pc t1 mob).isSome then [LogLine.backedUp (backupPathOf mob t2)]
    else [])

/-- The lines one visit of `url` may print. -/
def visitLine (url : String) (line : LogLine) : Prop :=
  line = LogLine.crawling url ∨ line = LogLine.success url ∨
    (∃ p, line = LogLine.backedUp p) ∨ (∃ m, line = LogLine.failed url m)

/-- A second run of the program, in environment `env2`, on the disk left by a first run
in environment `env1` with the same arguments and URL list. -/
def secondRun (paths : Paths) (env1 env2 : Env) (args urls : List String) (d : Disk) :
    Outcome :=
  main paths env2 args urls (main paths env1 args urls d).state.disk

/-- A metadata record with its timestamp blanked. -/
def eraseMetaTime (r : MetadataRecord) : MetadataRecord := { r with timestamp := "" }

/-- A failure record with its timestamp blanked. -/
def eraseFailTime (r : FailureRecord) : FailureRecord := { r with timestamp := "" }

/-- Two metadata maps hold the same records under the same keys, timestamps ignored. -/
def SameMetaData (a b : JsObject MetadataRecord) : Prop :=
  ∀ u, (JsObject.get? a u).map eraseMetaTime = (JsObject.get? b u).map eraseMetaTime

/-- Two failure maps hold the same records under the same keys, timestamps ignored. -/
def SameFailures (a b : JsObject FailureRecord) : Prop :=
  ∀ u, (JsObject.get? a u).map eraseFailTime = (JsObject.get? b u).map eraseFailTime

/-- Two scripts in which every browser call behaves the same; only the clock reads may
differ. -/
def SameOutcome (a b : PageScript) : Prop :=
  a.newPage = b.newPage ∧ a.goto = b.goto ∧ a.waitImages = b.waitImages ∧
  a.evaluate = b.evaluate ∧ a.setViewportPc = b.setViewportPc ∧
  a.screenshotPc = b.screenshotPc ∧ a.setViewportMobile = b.setViewportMobile ∧
  a.setUserAgent = b.setUserAgent ∧ a.reload = b.reload ∧
  a.waitImagesMobile = b.waitImagesMobile ∧ a.screenshotMobile = b.screenshotMobile ∧
  a.close = b.close

/-- In environment `env` the outcome of visiting a URL is the fixed function `page` of the
URL. -/
def FixedOutcome (env : Env) (page : String → PageScript) : Prop :=
  ∀ i u, SameOutcome (env.script i u) (page u)

/-- The metadata record (timestamp blanked) a visit of `u` leaves when the outcome of the
visit is `page u`; `none` when the visit fails. -/
def outcomeMeta (paths : Paths) (hostname : String → Option String)
    (page : String → PageScript) (u : String) : Option MetadataRecord :=
  match hostname u, tryResult (page u) with
  | some domain, none => some (eraseMetaTime (recordOf paths (page u) u domain))
  | _, _ => none

/-- The failure record (timestamp blanked) a visit of `u` leaves when the outcome of the
visit is `page u`; `none` when the visit succeeds. -/
def outcomeFailure (hostname : String → Option String) (page : String → PageScript)
    (u : String) : Option FailureRecord :=
  match hostname u, tryResult (page u) with
  | some _, some message => some { url := u, error := message, timestamp := "" }
  | _, _ => none

/-- Whether the loop visits `x` when it runs over `l` from a state whose metadata map
is `metaData`. -/
def visitedBy (args l : List String) (metaData : JsObject MetadataRecord) (x : String) :
    Prop :=
  x ∈ l ∧ (skipCheckActive args = false ∨ JsObject.has metaData x = false)

/-- The outcome function in which `https://a.test/` times out and every other page loads
and is titled `A`. -/
def mixedPage (u : String) : PageScript :=
  if u = "https://a.test/" then navigationFailure "Navigation timeout"
  else resolvingScript (titledDocument "A")

/-- An environment whose visits follow `mixedPage`. -/
def mixedEnv : Env :=
  { hostname := sampleHostname, script := fun _ u => mixedPage u }

/-- A disk left by earlier runs with disjoint maps: `https://b.test/` has a metadata
record and `https://a.test/` has a failure record. -/
def disjointDisk : Disk :=
  { metaFile := some [("https://b.test/",
      { url := "https://b.test/", meta := { title := "B", description := "" },
        screenshots :=
          { pc := pathJoin "screenshots/pc" "b.test.png"
            mobile := pathJoin "screenshots/mobile" "b.test.png" },
        timestamp := "2024-12-30T00:00:00.000Z" })]
    failuresFile := some [("https://a.test/",
      { url := "https://a.test/", error := "Navigation timeout",
        timestamp := "2024-12-31T00:00:00.000Z" })]
    reportFile := none
    files := fun _ => none }

/-! ## Lemmas on objects and on one loop iteration -/

namespace JsObject
variable {α : Type}

theorem get?_set_self (o : JsObject α) (k : String) (v : α) : get? (set o k v) k = some v := by
  induction o with
  | nil => simp [set, get?]
  | cons e rest ih =>
    obtain ⟨k', v'⟩ := e
    by_cases h : k' = k <;> simp [set, get?, h, ih]

theorem get?_set_ne (o : JsObject α) (k k' : String) (v : α) (hne : k' ≠ k) :
    get? (set o k v) k' = get? o k' := by
  induction o with
  | nil => simp [set, get?, Ne.symm hne]
  | cons e rest ih =>
    obtain ⟨k0, v0⟩ := e
    by_cases h : k0 = k
    · subst h; simp [set, get?, Ne.symm hne]
    · by_cases h2 : k0 = k'
      · subst h2; simp [set, get?, h]
      · simp [set, get?, h, h2, ih]

theorem get?_delete_self (o : JsObject α) (k : String) : get? (delete o k) k = none := by
  induction o with
  | nil => simp [delete, get?]
  | cons e rest ih =>
    obtain ⟨k0, v0⟩ := e
    by_cases h : k0 = k
    · simpa [delete, List.filter_cons, h] using ih
    · simpa [delete, List.filter_cons, h, get?] using ih

theorem get?_delete_ne (o : JsObject α) (k k' : String) (hne : k' ≠ k) :
    get? (delete o k) k' = get? o k' := by
  induction o with
  | nil => simp [delete, get?]
  | cons e rest ih =>
    obtain ⟨k0, v0⟩ := e
    by_cases h : k0 = k
    · subst h
      simpa [delete, List.filter_cons, get?, Ne.symm hne] using ih
    · by_cases h2 : k0 = k'
      · subst h2; simp [delete, List.filter_cons, h, get?]
      · simpa [delete, List.filter_cons, h, get?, h2] using ih

theorem mem_keys_iff (o : JsObject α) (k : String) : k ∈ keys o ↔ has o k = true := by
  induction o with
  | nil => simp [keys, has, get?]
  | cons e rest ih =>
    obtain ⟨k0, v0⟩ := e
    by_cases h : k0 = k
    · simp [keys, has, get?, h]
    · have : k ≠ k0 := fun h' => h h'.symm
      simpa [keys, has, get?, h, this] using ih

end JsObject

@[simp] theorem makeBackupIfExists_metaData (p : Path) (n : Nat) (s : State) :
    (makeBackupIfExists p n s).metaData = s.metaData := by
  unfold makeBackupIfExists; split <;> rfl

@[simp] theorem makeBackupIfExists_failures (p : Path) (n : Nat) (s : State) :
    (makeBackupIfExists p n s).failures = s.failures := by
  unfold makeBackupIfExists; split <;> rfl

namespace JsObject
variable {α : Type}

theorem delete_cons (k0 : String) (v0 : α) (rest : JsObject α) (k : String) :
    delete ((k0, v0) :: rest) k =
      if k0 = k then delete rest k else (k0, v0) :: delete rest k := by
  by_cases h : k0 = k <;> simp [delete, List.filter_cons, h]

theorem delete_of_not_has (o : JsObject α) (k : String) (h : has o k = false) :
    delete o k = o := by
  induction o with
  | nil => simp [delete]
  | cons e rest ih =>
    obtain ⟨k0, v0⟩ := e
    by_cases h0 : k0 = k
    · simp [has, get?, h0] at h
    · have hrest : has rest k = false := by simpa [has, get?, h0] using h
      rw [delete_cons, if_neg h0, ih hrest]

end JsObject

@[simp] theorem makeBackupIfExists_success (p : Path) (n : Nat) (s : State) :
    (makeBackupIfExists p n s).success = s.success := by
  unfold makeBackupIfExists; split <;> rfl

@[simp] theorem makeBackupIfExists_fail (p : Path) (n : Nat) (s : State) :
    (makeBackupIfExists p n s).fail = s.fail := by
  unfold makeBackupIfExists; split <;> rfl

@[simp] theorem makeBackupIfExists_skip (p : Path) (n : Nat) (s : State) :
    (makeBackupIfExists p n s).skip = s.skip := by
  unfold makeBackupIfExists; split <;> rfl

@[simp] theorem makeBackupIfExists_openPages (p : Path) (n : Nat) (s : State) :
    (makeBackupIfExists p n s).openPages = s.openPages := by
  unfold makeBackupIfExists; split <;> rfl

@[simp] theorem makeBackupIfExists_browserOpen (p : Path) (n : Nat) (s : State) :
    (makeBackupIfExists p n s).browserOpen = s.browserOpen := by
  unfold makeBackupIfExists; split <;> rfl

@[simp] theorem makeBackupIfExists_metaFile (p : Path) (n : Nat) (s : State) :
    (makeBackupIfExists p n s).disk.metaFile = s.disk.metaFile := by
  unfold makeBackupIfExists; split <;> rfl

@[simp] theorem makeBackupIfExists_failuresFile (p : Path) (n : Nat) (s : State) :
    (makeBackupIfExists p n s).disk.failuresFile = s.disk.failuresFile := by
  unfold makeBackupIfExists; split <;> rfl

@[simp] theorem makeBackupIfExists_reportFile (p : Path) (n : Nat) (s : State) :
    (makeBackupIfExists p n s).disk.reportFile = s.disk.reportFile := by
  unfold makeBackupIfExists; split <;> rfl

/-- What the `try` block does to the maps, the counters and the JSON documents. -/
theorem tryBlock_spec (paths : Paths) (retry : Bool) (sc : PageScript) (url domain : String)
    (s : State) :
    (tryBlock paths retry sc url domain s).2 = tryResult sc ∧
    (tryBlock paths retry sc url domain s).1.metaData =
      (if reachesWrite sc then JsObject.set s.metaData url (recordOf paths sc url domain)
        else s.metaData) ∧
    (tryBlock paths retry sc url domain s).1.failures =
      (if reachesWrite sc then JsObject.delete s.failures url else s.failures) ∧
    (tryBlock paths retry sc url domain s).1.success =
      (if reachesWrite sc then s.success + 1 else s.success) ∧
    (tryBlock paths retry sc url domain s).1.fail = s.fail ∧
    (tryBlock paths retry sc url domain s).1.skip = s.skip ∧
    (tryBlock paths retry sc url domain s).1.browserOpen = s.browserOpen ∧
    (tryBlock paths retry sc url domain s).1.disk.metaFile = s.disk.metaFile ∧
    (tryBlock paths retry sc url domain s).1.disk.failuresFile = s.disk.failuresFile ∧
    (tryBlock paths retry sc url domain s).1.disk.reportFile = s.disk.reportFile := by
  obtain ⟨np, gt, wi, ev, ts, b1, b2, vp, sp, vm, ua, rl, wm, sm, cl, ft⟩ := sc
  rcases np with _ | e
  swap
  · simp [tryBlock, tryResult, reachesWrite]
  rcases gt with _ | e
  swap
  · simp [tryBlock, tryResult, reachesWrite]
  rcases wi with _ | e
  swap
  · simp [tryBlock, tryResult, reachesWrite]
  rcases ev with doc | e
  swap
  · simp [tryBlock, tryResult, reachesWrite]
  by_cases hm : metaIsEmpty (scrapeMeta doc) = true
  · simp [tryBlock, tryResult, reachesWrite, hm]
  rcases vp with _ | e
  swap
  · cases retry <;> simp [tryBlock, tryResult, reachesWrite, hm]
  rcases sp with img | e
  swap
  · cases retry <;> simp [tryBlock, tryResult, reachesWrite, hm]
  rcases vm with _ | e
  swap
  · cases retry <;> simp [tryBlock, tryResult, reachesWrite, hm]
  rcases ua with _ | e
  swap
  · cases retry <;> simp [tryBlock, tryResult, reachesWrite, hm]
  rcases rl with _ | e
  swap
  · cases retry <;> simp [tryBlock, tryResult, reachesWrite, hm]
  rcases wm with _ | e
  swap
  · cases retry <;> simp [tryBlock, tryResult, reachesWrite, hm]
  rcases sm with img2 | e
  swap
  · cases retry <;> simp [tryBlock, tryResult, reachesWrite, hm]
  by_cases hf : JsObject.has s.failures url = true
  · rcases cl with _ | e <;> cases retry <;>
      simp [tryBlock, tryResult, reachesWrite, hm, hf, recordOf, scrapedMeta]
  · have hf2 : JsObject.has s.failures url = false := by simpa using hf
    have hd := JsObject.delete_of_not_has s.failures url hf2
    rcases cl with _ | e <;> cases retry <;>
      simp [tryBlock, tryResult, reachesWrite, hm, hf2, hd, recordOf, scrapedMeta]

theorem tryResult_none_reachesWrite (sc : PageScript) (h : tryResult sc = none) :
    reachesWrite sc = true := by
  obtain ⟨np, gt, wi, ev, ts, b1, b2, vp, sp, vm, ua, rl, wm, sm, cl, ft⟩ := sc
  rcases cl with _ | e
  · simpa [reachesWrite] using h
  · revert h
    simp only [tryResult]
    repeat' split
    all_goals simp

theorem catchBlock_metaData (sc : PageScript) (url message : String) (s : State) :
    (catchBlock sc url message s).metaData = JsObject.delete s.metaData url := by
  by_cases h : JsObject.has s.metaData url = true
  · simp [catchBlock, h]
  · have h2 : JsObject.has s.metaData url = false := by simpa using h
    simp [catchBlock, h2, JsObject.delete_of_not_has s.metaData url h2]

theorem catchBlock_failures (sc : PageScript) (url message : String) (s : State) :
    (catchBlock sc url message s).failures =
      JsObject.set s.failures url (failureOf sc url message) := by
  by_cases h : JsObject.has s.metaData url = true <;> simp [catchBlock, h, failureOf]

theorem catchBlock_counters (sc : PageScript) (url message : String) (s : State) :
    (catchBlock sc url message s).success = s.success ∧
    (catchBlock sc url message s).fail = s.fail + 1 ∧
    (catchBlock sc url message s).skip = s.skip := by
  by_cases h : JsObject.has s.metaData url = true <;> simp [catchBlock, h]

theorem visit_eq (paths : Paths) (retry : Bool) (sc : PageScript) (url domain : String)
    (s : State) :
    visit paths retry sc url domain s =
      match tryResult sc with
      | none => saveProgress (tryBlock paths retry sc url domain s).1
      | some message =>
        saveProgress (catchBlock sc url message (tryBlock paths retry sc url domain s).1) := by
  have h := (tryBlock_spec paths retry sc url domain s).1
  unfold visit
  generalize tryBlock paths retry sc url domain s = r at h
  obtain ⟨s1, r2⟩ := r
  simp only at h
  subst h
  cases tryResult sc <;> rfl

@[simp] theorem saveProgress_metaData (s : State) : (saveProgress s).metaData = s.metaData := rfl
@[simp] theorem saveProgress_failures (s : State) : (saveProgress s).failures = s.failures := rfl
@[simp] theorem saveProgress_metaFile (s : State) :
    (saveProgress s).disk.metaFile = some s.metaData := rfl
@[simp] theorem saveProgress_failuresFile (s : State) :
    (saveProgress s).disk.failuresFile = some s.failures := rfl

theorem visit_metaData_get (paths : Paths) (retry : Bool) (sc : PageScript)
    (url domain : String) (s : State) (k : String) :
    JsObject.get? (visit paths retry sc url domain s).metaData k =
      if k = url then
        (match tryResult sc with
          | none => some (recordOf paths sc url domain)
          | some _ => none)
      else JsObject.get? s.metaData k := by
  obtain ⟨-, hm, -⟩ := tryBlock_spec paths retry sc url domain s
  rw [visit_eq]
  cases hr : tryResult sc with
  | none =>
    have hw := tryResult_none_reachesWrite sc hr
    simp only [saveProgress_metaData, hm, hw, if_true]
    by_cases hk : k = url
    · subst hk; simp [JsObject.get?_set_self]
    · simp [hk, JsObject.get?_set_ne _ _ _ _ hk]
  | some m =>
    simp only [saveProgress_metaData, catchBlock_metaData, hm]
    by_cases hk : k = url
    · subst hk; simp [JsObject.get?_delete_self]
    · rw [JsObject.get?_delete_ne _ _ _ hk, if_neg hk]
      split
      · exact JsObject.get?_set_ne _ _ _ _ hk
      · rfl

theorem visit_failures_get (paths : Paths) (retry : Bool) (sc : PageScript)
    (url domain : String) (s : State) (k : String) :
    JsObject.get? (visit paths retry sc url domain s).failures k =
      if k = url then
        (match tryResult sc with
          | none => none
          | some message => some (failureOf sc url message))
      else JsObject.get? s.failures k := by
  obtain ⟨-, -, hf, -⟩ := tryBlock_spec paths retry sc url domain s
  rw [visit_eq]
  cases hr : tryResult sc with
  | none =>
    have hw := tryResult_none_reachesWrite sc hr
    simp only [saveProgress_failures, hf, hw, if_true]
    by_cases hk : k = url
    · subst hk; simp [JsObject.get?_delete_self]
    · simp [hk, JsObject.get?_delete_ne _ _ _ hk]
  | some m =>
    simp only [saveProgress_failures, catchBlock_failures, hf]
    by_cases hk : k = url
    · subst hk; simp [JsObject.get?_set_self]
    · rw [JsObject.get?_set_ne _ _ _ _ hk, if_neg hk]
      split
      · exact JsObject.get?_delete_ne _ _ _ hk
      · rfl

theorem visit_synced (paths : Paths) (retry : Bool) (sc : PageScript)
    (url domain : String) (s : State) :
    (visit paths retry sc url domain s).disk.metaFile =
        some (visit paths retry sc url domain s).metaData ∧
    (visit paths retry sc url domain s).disk.failuresFile =
        some (visit paths retry sc url domain s).failures := by
  rw [visit_eq]
  cases tryResult sc <;> simp

theorem loopBody_visit (paths : Paths) (env : Env) (args : List String) (i : Nat)
    (url domain : String) (s : State) (hd : env.hostname url = some domain)
    (hv : (skipCheckActive args && JsObject.has s.metaData url) = false) :
    loopBody paths env args i url s =
      .ok (visit paths (retryFailures args) (env.script i url) url domain s) := by
  simp [loopBody, hd, hv]

theorem loopBody_skip (paths : Paths) (env : Env) (args : List String) (i : Nat)
    (url domain : String) (s : State) (hd : env.hostname url = some domain)
    (hv : (skipCheckActive args && JsObject.has s.metaData url) = true) :
    loopBody paths env args i url s =
      .ok { s with console := s.console ++ [LogLine.skipping url], skip := s.skip + 1 } := by
  simp [loopBody, hd, hv]

theorem updateUrl_of_not_mem (args : List String) (h : "--update" ∉ args) :
    updateUrl args = none := by
  simp [updateUrl, updateIndex, h]

theorem updateUrl_append (pre rest : List String) (h : "--update" ∉ pre) :
    updateUrl (pre ++ "--update" :: rest) = rest.head? := by
  have hi : List.indexOf "--update" (pre ++ "--update" :: rest) = pre.length := by
    rw [List.indexOf_append_of_not_mem h, List.indexOf_cons_self, Nat.add_zero]
  have hmem : "--update" ∈ pre ++ "--update" :: rest := by simp
  have hc : (pre ++ "--update" :: rest).contains "--update" = true := by
    simp
  have hn : ((pre.length : Int) + 1).toNat = pre.length + 1 := by omega
  have hne : ((pre.length : Int) ≠ -1) := by omega
  simp only [updateUrl, updateIndex, hc, if_true, hi, hn, ne_eq, hne, not_false_eq_true]
  rw [List.get?_eq_getElem?, List.getElem?_append_right (by omega)]
  have : pre.length + 1 - pre.length = 1 := by omega
  rw [this]
  cases rest <;> simp

theorem updateUrl_some_iff (args : List String) (url : String) :
    updateUrl args = some url ↔
      ∃ pre post, args = pre ++ "--update" :: url :: post ∧ "--update" ∉ pre := by
  constructor
  · intro h
    by_cases hmem : "--update" ∈ args
    · obtain ⟨pre, rest, rfl, hpre⟩ := List.eq_append_cons_of_mem hmem
      rw [updateUrl_append pre rest hpre] at h
      cases rest with
      | nil => simp at h
      | cons u post =>
        simp at h
        subst h
        exact ⟨pre, post, rfl, hpre⟩
    · rw [updateUrl_of_not_mem args hmem] at h; cases h
  · rintro ⟨pre, post, rfl, hpre⟩
    rw [updateUrl_append pre _ hpre]; rfl

theorem truthy_updateUrl_iff (args : List String) :
    truthy (updateUrl args) = true ↔ ∃ url, UpdateGiven args url := by
  constructor
  · intro h
    cases hu : updateUrl args with
    | none => simp [hu, truthy] at h
    | some u =>
      obtain ⟨pre, post, rfl, hpre⟩ := (updateUrl_some_iff args u).1 hu
      refine ⟨u, pre, post, rfl, hpre, ?_⟩
      simpa [hu, truthy] using h
  · rintro ⟨url, pre, post, rfl, hpre, hne⟩
    rw [(updateUrl_some_iff _ url).2 ⟨pre, post, rfl, hpre⟩]
    simp [truthy, hne]

theorem skipCheckActive_of_no_flags (args : List String)
    (hall : "--all" ∉ args) (hupd : "--update" ∉ args) (hretry : "--retry-failures" ∉ args) :
    skipCheckActive args = true := by
  simp [skipCheckActive, forceAll, retryFailures, hall, hretry, updateUrl_of_not_mem args hupd,
    truthy]

theorem targetUrls_of_no_flags (args urls : List String) (failures : JsObject FailureRecord)
    (hupd : "--update" ∉ args) (hretry : "--retry-failures" ∉ args) :
    targetUrls args urls failures = urls := by
  simp [targetUrls, retryFailures, hretry, updateUrl_of_not_mem args hupd]

theorem announce_of_no_flags (args targets : List String) (s : State)
    (hall : "--all" ∉ args) (hupd : "--update" ∉ args) (hretry : "--retry-failures" ∉ args) :
    announce args targets s = s := by
  simp [announce, retryFailures, forceAll, hall, hretry, updateUrl_of_not_mem args hupd]

theorem metaIsEmpty_iff (m : Meta) :
    metaIsEmpty m = true ↔ m.title = "" ∧ m.description = "" := by
  simp [metaIsEmpty]

theorem tryResult_scrape_iff (sc : PageScript) (doc : Document)
    (h1 : sc.newPage = .resolved ()) (h2 : sc.goto = .resolved ())
    (h3 : sc.waitImages = .resolved ()) (h4 : sc.evaluate = .resolved doc)
    (hext : scrapeFailedMessage ∉ laterMessages sc) :
    tryResult sc = some scrapeFailedMessage ↔ metaIsEmpty (scrapeMeta doc) = true := by
  obtain ⟨np, gt, wi, ev, ts, b1, b2, vp, sp, vm, ua, rl, wm, sm, cl, ft⟩ := sc
  simp only at h1 h2 h3 h4
  subst h1 h2 h3 h4
  by_cases hm : metaIsEmpty (scrapeMeta doc) = true
  · simp [tryResult, hm]
  refine iff_of_false ?_ hm
  intro hr
  apply hext
  rcases vp with _ | e
  swap
  · simp [tryResult, hm] at hr; simp [laterMessages, Await.message?, hr]
  rcases sp with img | e
  swap
  · simp [tryResult, hm] at hr; simp [laterMessages, Await.message?, hr]
  rcases vm with _ | e
  swap
  · simp [tryResult, hm] at hr; simp [laterMessages, Await.message?, hr]
  rcases ua with _ | e
  swap
  · simp [tryResult, hm] at hr; simp [laterMessages, Await.message?, hr]
  rcases rl with _ | e
  swap
  · simp [tryResult, hm] at hr; simp [laterMessages, Await.message?, hr]
  rcases wm with _ | e
  swap
  · simp [tryResult, hm] at hr; simp [laterMessages, Await.message?, hr]
  rcases sm with img2 | e
  swap
  · simp [tryResult, hm] at hr; simp [laterMessages, Await.message?, hr]
  rcases cl with _ | e
  · simp [tryResult, hm] at hr
  · simp [tryResult, hm] at hr; simp [laterMessages, Await.message?, hr]

theorem basename_length (f : Path) (ext : String) :
    f.name.length ≤ (basename f ext).length + ext.length := by
  unfold basename
  split
  · omega
  · rename_i h1
    split
    · rename_i h2
      subst h2
      simp
    · split
      · have hlen : (String.mk (List.take (f.name.length - ext.length) f.name.data)).length
            = min (f.name.length - ext.length) f.name.length := by
          show (List.take (f.name.length - ext.length) f.name.data).length = _
          rw [List.length_take]
          rfl
        rw [hlen]
        omega
      · omega

theorem backupPathOf_name_length (f : Path) (now : Nat) :
    f.name.length < (backupPathOf f now).name.length := by
  have h := basename_length f (extname f)
  have h8 : ("-backup-" : String).length = 8 := by decide
  simp only [backupPathOf, pathJoin, String.length_append, h8]
  omega

theorem backupPathOf_ne (f g : Path) (now : Nat) (h : g.name = f.name) :
    backupPathOf f now ≠ g := by
  intro he
  have h1 := backupPathOf_name_length f now
  rw [he, h] at h1
  exact lt_irrefl _ h1

theorem makeBackupIfExists_files (p : Path) (n : Nat) (s : State) :
    (makeBackupIfExists p n s).disk.files = backupFiles s.disk.files p n := by
  unfold makeBackupIfExists backupFiles
  split <;> rfl

theorem backupPathOf_dir (f : Path) (now : Nat) : (backupPathOf f now).dir = f.dir := rfl

theorem backupFiles_of_some (files : Path → Option String) (p : Path) (t : Nat)
    (h : (files p).isSome = true) :
    backupFiles files p t = renameSync files p (backupPathOf p t) := by
  simp [backupFiles, h]

theorem backupFiles_of_none (files : Path → Option String) (p : Path) (t : Nat)
    (h : ¬ (files p).isSome = true) : backupFiles files p t = files := by
  simp [backupFiles, h]

theorem backupFiles_pc (files : Path → Option String) (pc mob : Path) (t1 t2 : Nat)
    (old : String) (hname : mob.name = pc.name) (h : files pc = some old) :
    backupFiles (backupFiles files pc t1) mob t2 (backupPathOf pc t1) = some old := by
  have hbp : backupPathOf pc t1 ≠ pc := backupPathOf_ne pc pc t1 rfl
  have hbm : backupPathOf pc t1 ≠ mob := backupPathOf_ne pc mob t1 hname
  have hF1 : backupFiles files pc t1 = renameSync files pc (backupPathOf pc t1) := by
    simp [backupFiles, h]
  have hF1bp : backupFiles files pc t1 (backupPathOf pc t1) = some old := by
    simp [hF1, renameSync, h]
  by_cases hs : (backupFiles files pc t1 mob).isSome = true
  · have hne : mob ≠ pc := by
      intro he
      subst he
      simp [hF1, renameSync, Ne.symm hbp] at hs
    have hdir : backupPathOf pc t1 ≠ backupPathOf mob t2 := by
      intro he
      have hd : pc.dir = mob.dir := by
        have := congrArg Path.dir he
        simpa [backupPathOf_dir] using this
      apply hne
      cases pc; cases mob
      simp_all
    rw [backupFiles_of_some _ mob t2 hs]
    simp [renameSync, hdir, hbm, hF1bp]
  · rw [backupFiles_of_none _ mob t2 hs]
    exact hF1bp

theorem backupFiles_mobile (files : Path → Option String) (pc mob : Path) (t1 t2 : Nat)
    (old : String) (hname : mob.name = pc.name) (h : files mob = some old) :
    backupFiles (backupFiles files pc t1) mob t2 (backupPathOf mob t2) = some old ∨
    (mob = pc ∧
      backupFiles (backupFiles files pc t1) mob t2 (backupPathOf pc t1) = some old) := by
  by_cases he : mob = pc
  · subst he
    exact Or.inr ⟨rfl, backupFiles_pc files mob mob t1 t2 old rfl h⟩
  · left
    have hbm : mob ≠ backupPathOf pc t1 := Ne.symm (backupPathOf_ne pc mob t1 hname)
    have h1 : backupFiles files pc t1 mob = some old := by
      unfold backupFiles
      split
      · simp [renameSync, hbm, he, h]
      · exact h
    rw [backupFiles_of_some _ mob t2 (by simp [h1])]
    simp [renameSync, h1]

theorem tryBlock_files_after_check (paths : Paths) (sc : PageScript) (url domain : String)
    (s : State) (doc : Document)
    (h1 : sc.newPage = .resolved ()) (h2 : sc.goto = .resolved ())
    (h3 : sc.waitImages = .resolved ()) (h4 : sc.evaluate = .resolved doc)
    (hm : metaIsEmpty (scrapeMeta doc) = false) (q : Path)
    (hq1 : q ≠ pcFileOf paths domain) (hq2 : q ≠ mobileFileOf paths domain) :
    (tryBlock paths true sc url domain s).1.disk.files q =
      backupFiles (backupFiles s.disk.files (pcFileOf paths domain) sc.backupNowPc)
        (mobileFileOf paths domain) sc.backupNowMobile q := by
  obtain ⟨np, gt, wi, ev, ts, b1, b2, vp, sp, vm, ua, rl, wm, sm, cl, ft⟩ := sc
  simp only at h1 h2 h3 h4
  subst h1 h2 h3 h4
  unfold pcFileOf mobileFileOf at *
  rcases vp with _ | e
  swap
  · simp [tryBlock, hm, makeBackupIfExists_files]
  rcases sp with img | e
  swap
  · simp [tryBlock, hm, makeBackupIfExists_files]
  rcases vm with _ | e
  swap
  · simp [tryBlock, hm, makeBackupIfExists_files, writeFile, hq1]
  rcases ua with _ | e
  swap
  · simp [tryBlock, hm, makeBackupIfExists_files, writeFile, hq1]
  rcases rl with _ | e
  swap
  · simp [tryBlock, hm, makeBackupIfExists_files, writeFile, hq1]
  rcases wm with _ | e
  swap
  · simp [tryBlock, hm, makeBackupIfExists_files, writeFile, hq1]
  rcases sm with img2 | e
  swap
  · simp [tryBlock, hm, makeBackupIfExists_files, writeFile, hq1]
  by_cases hf : JsObject.has s.failures url = true <;> rcases cl with _ | e <;>
    simp [tryBlock, hm, makeBackupIfExists_files, writeFile, hq1, hq2, hf]

theorem visit_files (paths : Paths) (retry : Bool) (sc : PageScript) (url domain : String)
    (s : State) :
    (visit paths retry sc url domain s).disk.files =
      (tryBlock paths retry sc url domain s).1.disk.files := by
  rw [visit_eq]
  cases tryResult sc with
  | none => rfl
  | some m =>
    by_cases h : JsObject.has (tryBlock paths retry sc url domain s).1.metaData url = true <;>
      simp [saveProgress, writeFailures, writeJSON, catchBlock, h]

theorem loopBody_ok_cases (paths : Paths) (env : Env) (args : List String) (i : Nat)
    (url : String) (s s1 : State) (h : loopBody paths env args i url s = .ok s1) :
    ∃ domain, env.hostname url = some domain ∧
      (((skipCheckActive args && JsObject.has s.metaData url) = true ∧
          s1 = { s with console := s.console ++ [LogLine.skipping url], skip := s.skip + 1 }) ∨
        ((skipCheckActive args && JsObject.has s.metaData url) = false ∧
          s1 = visit paths (retryFailures args) (env.script i url) url domain s)) := by
  cases hd : env.hostname url with
  | none => simp [loopBody, hd] at h
  | some domain =>
    refine ⟨domain, rfl, ?_⟩
    cases hv : (skipCheckActive args && JsObject.has s.metaData url) with
    | true =>
      left
      rw [loopBody_skip paths env args i url domain s hd hv] at h
      exact ⟨rfl, (Except.ok.inj h).symm⟩
    | false =>
      right
      rw [loopBody_visit paths env args i url domain s hd hv] at h
      exact ⟨rfl, (Except.ok.inj h).symm⟩

theorem forLoop_invariant (paths : Paths) (env : Env) (args : List String)
    (P : State → Prop)
    (hstep : ∀ i url s s1, P s → loopBody paths env args i url s = .ok s1 → P s1) :
    ∀ (l : List String) (i : Nat) (s s1 : State) (r : Option String),
      P s → forLoop paths env args i l s = (s1, r) → P s1 := by
  intro l
  induction l with
  | nil =>
    intro i s s1 r hp h
    simp [forLoop] at h
    rw [← h.1]; exact hp
  | cons url rest ih =>
    intro i s s1 r hp h
    cases hb : loopBody paths env args i url s with
    | error e =>
      simp [forLoop, hb] at h
      rw [← h.1]; exact hp
    | ok s2 =>
      simp only [forLoop, hb] at h
      exact ih (i + 1) s2 s1 r (hstep i url s s2 hp hb) h

theorem visit_has_metaData (paths : Paths) (retry : Bool) (sc : PageScript)
    (url domain : String) (s : State) (k : String) :
    JsObject.has (visit paths retry sc url domain s).metaData k =
      if k = url then (tryResult sc).isNone else JsObject.has s.metaData k := by
  simp only [JsObject.has, visit_metaData_get]
  by_cases hk : k = url
  · simp only [hk, if_true]; cases tryResult sc <;> rfl
  · simp [hk]

theorem visit_has_failures (paths : Paths) (retry : Bool) (sc : PageScript)
    (url domain : String) (s : State) (k : String) :
    JsObject.has (visit paths retry sc url domain s).failures k =
      if k = url then (tryResult sc).isSome else JsObject.has s.failures k := by
  simp only [JsObject.has, visit_failures_get]
  by_cases hk : k = url
  · simp only [hk, if_true]; cases tryResult sc <;> rfl
  · simp [hk]

theorem loopBody_synced (paths : Paths) (env : Env) (args : List String) (i : Nat)
    (url : String) (s s1 : State) (hs : Synced s)
    (h : loopBody paths env args i url s = .ok s1) : Synced s1 := by
  obtain ⟨domain, -, ⟨-, rfl⟩ | ⟨-, rfl⟩⟩ := loopBody_ok_cases paths env args i url s s1 h
  · exact hs
  · obtain ⟨h1, h2⟩ := visit_synced paths (retryFailures args) (env.script i url) url domain s
    simp [Synced, readJSON, readFailures, h1, h2]

theorem loopBody_exclusive (paths : Paths) (env : Env) (args : List String) (i : Nat)
    (url : String) (s s1 : State) (hs : Exclusive s.metaData s.failures)
    (h : loopBody paths env args i url s = .ok s1) : Exclusive s1.metaData s1.failures := by
  obtain ⟨domain, -, ⟨-, rfl⟩ | ⟨-, rfl⟩⟩ := loopBody_ok_cases paths env args i url s s1 h
  · exact hs
  · intro u
    rw [visit_has_metaData, visit_has_failures]
    by_cases hu : u = url
    · simp only [hu, if_true]; cases tryResult (env.script i url) <;> simp
    · simp only [hu, if_false]; exact hs u

theorem loopBody_inExactlyOne_self (paths : Paths) (env : Env) (args : List String) (i : Nat)
    (url : String) (s s1 : State) (hs : Exclusive s.metaData s.failures)
    (h : loopBody paths env args i url s = .ok s1) :
    InExactlyOne s1.metaData s1.failures url := by
  obtain ⟨domain, -, ⟨hv, rfl⟩ | ⟨-, rfl⟩⟩ := loopBody_ok_cases paths env args i url s s1 h
  · have hm : JsObject.has s.metaData url = true := by
      simp only [Bool.and_eq_true] at hv; exact hv.2
    left
    refine ⟨hm, ?_⟩
    cases hf : JsObject.has s.failures url with
    | false => rfl
    | true => exact absurd ⟨hm, hf⟩ (hs url)
  · unfold InExactlyOne
    rw [visit_has_metaData, visit_has_failures]
    simp only [if_true]
    cases tryResult (env.script i url) <;> simp

theorem loopBody_inExactlyOne_keep (paths : Paths) (env : Env) (args : List String) (i : Nat)
    (url : String) (s s1 : State) (u : String) (hs : Exclusive s.metaData s.failures)
    (hu : InExactlyOne s.metaData s.failures u)
    (h : loopBody paths env args i url s = .ok s1) :
    InExactlyOne s1.metaData s1.failures u := by
  by_cases he : u = url
  · subst he
    exact loopBody_inExactlyOne_self paths env args i u s s1 hs h
  · obtain ⟨domain, -, ⟨-, rfl⟩ | ⟨-, rfl⟩⟩ := loopBody_ok_cases paths env args i url s s1 h
    · exact hu
    · unfold InExactlyOne
      rw [visit_has_metaData, visit_has_failures]
      simp only [he, if_false]
      exact hu

/-- Along the loop the maps stay synced with the disk and exclusive, and every URL
processed so far is in exactly one of them. -/
theorem forLoop_exactlyOne (paths : Paths) (env : Env) (args : List String) :
    ∀ (l : List String) (i : Nat) (s s1 : State) (r : Option String),
      Synced s → Exclusive s.metaData s.failures →
      forLoop paths env args i l s = (s1, r) →
      Synced s1 ∧ Exclusive s1.metaData s1.failures ∧
      (r = none → ∀ u ∈ l, InExactlyOne s1.metaData s1.failures u) ∧
      (∀ u, InExactlyOne s.metaData s.failures u → InExactlyOne s1.metaData s1.failures u) := by
  intro l
  induction l with
  | nil =>
    intro i s s1 r hsy hex h
    simp [forLoop] at h
    obtain ⟨rfl, -⟩ := h
    exact ⟨hsy, hex, fun _ u hu => absurd hu (List.not_mem_nil u), fun u hu => hu⟩
  | cons url rest ih =>
    intro i s s1 r hsy hex h
    cases hb : loopBody paths env args i url s with
    | error e =>
      simp [forLoop, hb] at h
      obtain ⟨rfl, rfl⟩ := h
      exact ⟨hsy, hex, fun hr => Option.noConfusion hr, fun u hu => hu⟩
    | ok s2 =>
      simp only [forLoop, hb] at h
      have hsy2 := loopBody_synced paths env args i url s s2 hsy hb
      have hex2 := loopBody_exclusive paths env args i url s s2 hex hb
      obtain ⟨a, b, c, d⟩ := ih (i + 1) s2 s1 r hsy2 hex2 h
      refine ⟨a, b, ?_, ?_⟩
      · intro hr u hu
        rcases List.mem_cons.1 hu with rfl | hu
        · exact d u (loopBody_inExactlyOne_self paths env args i u s s2 hex hb)
        · exact c hr u hu
      · intro u hu
        exact d u (loopBody_inExactlyOne_keep paths env args i url s s2 u hex hu hb)

theorem announce_fields (args targets : List String) (s : State) :
    (announce args targets s).metaData = s.metaData ∧
    (announce args targets s).failures = s.failures ∧
    (announce args targets s).disk = s.disk ∧
    (announce args targets s).success = s.success ∧
    (announce args targets s).fail = s.fail ∧
    (announce args targets s).skip = s.skip := by
  unfold announce
  repeat' split
  all_goals exact ⟨rfl, rfl, rfl, rfl, rfl, rfl⟩

theorem announce_synced (args targets : List String) (d : Disk) :
    Synced (announce args targets (initialState d)) := by
  obtain ⟨h1, h2, h3, -⟩ := announce_fields args targets (initialState d)
  unfold Synced
  rw [h1, h2, h3]
  exact ⟨rfl, rfl⟩

theorem announce_exclusive (args targets : List String) (d : Disk)
    (h : Exclusive (readJSON d) (readFailures d)) :
    Exclusive (announce args targets (initialState d)).metaData
      (announce args targets (initialState d)).failures := by
  obtain ⟨h1, h2, -⟩ := announce_fields args targets (initialState d)
  rw [h1, h2]; exact h

/-- The three ways in which `main` ends. -/
theorem main_cases (paths : Paths) (env : Env) (args urls : List String) (d : Disk) :
    ((retryFailures args && (targetUrls args urls (readFailures d)).isEmpty) = true ∧
      main paths env args urls d =
        { exit := .exitZero
          state := { initialState d with
            console := (initialState d).console ++ [LogLine.nothingToRetry] } }) ∨
    ((retryFailures args && (targetUrls args urls (readFailures d)).isEmpty) = false ∧
      ∃ s1 r, forLoop paths env args 0 (targetUrls args urls (readFailures d))
          (announce args (targetUrls args urls (readFailures d)) (initialState d)) = (s1, r) ∧
        ((r = none ∧ main paths env args urls d = { exit := .completed, state := finish args s1 }) ∨
          (∃ e, r = some e ∧ main paths env args urls d = { exit := .uncaught e, state := s1 }))) := by
  cases hc : (retryFailures args && (targetUrls args urls (readFailures d)).isEmpty) with
  | true =>
    left
    refine ⟨rfl, ?_⟩
    have hc2 : (retryFailures args &&
        (targetUrls args urls (initialState d).failures).isEmpty) = true := hc
    simp only [main, hc2, if_true]
  | false =>
    right
    refine ⟨rfl, ?_⟩
    have hc2 : (retryFailures args &&
        (targetUrls args urls (initialState d).failures).isEmpty) = false := hc
    rcases hl : forLoop paths env args 0 (targetUrls args urls (readFailures d))
        (announce args (targetUrls args urls (readFailures d)) (initialState d)) with ⟨s1, r⟩
    have hl2 : forLoop paths env args 0 (targetUrls args urls (initialState d).failures)
        (announce args (targetUrls args urls (initialState d).failures) (initialState d))
        = (s1, r) := hl
    refine ⟨s1, r, rfl, ?_⟩
    cases r with
    | none =>
      left
      refine ⟨rfl, ?_⟩
      simp only [main, hc2, hl2]
      rfl
    | some e =>
      right
      refine ⟨e, rfl, ?_⟩
      simp only [main, hc2, hl2]
      rfl

theorem makeBackupIfExists_console (p : Path) (n : Nat) (s : State) :
    (makeBackupIfExists p n s).console =
      s.console ++ (if (s.disk.files p).isSome then [LogLine.backedUp (backupPathOf p n)]
        else []) := by
  unfold makeBackupIfExists
  split <;> simp

theorem tryBlock_console (paths : Paths) (retry : Bool) (sc : PageScript) (url domain : String)
    (s : State) :
    (tryBlock paths retry sc url domain s).1.console =
      s.console ++ LogLine.crawling url ::
        ((if (retry && passesCheck sc) = true then
            backupLines s.disk.files (pcFileOf paths domain) (mobileFileOf paths domain)
              sc.backupNowPc sc.backupNowMobile
          else []) ++
        (if reachesWrite sc = true then [LogLine.success url] else [])) := by
  obtain ⟨np, gt, wi, ev, ts, b1, b2, vp, sp, vm, ua, rl, wm, sm, cl, ft⟩ := sc
  rcases np with _ | e
  swap
  · simp [tryBlock, tryResult, reachesWrite, passesCheck]
  rcases gt with _ | e
  swap
  · simp [tryBlock, tryResult, reachesWrite, passesCheck]
  rcases wi with _ | e
  swap
  · simp [tryBlock, tryResult, reachesWrite, passesCheck]
  rcases ev with doc | e
  swap
  · simp [tryBlock, tryResult, reachesWrite, passesCheck]
  by_cases hm : metaIsEmpty (scrapeMeta doc) = true
  · simp [tryBlock, tryResult, reachesWrite, passesCheck, hm]
  rcases vp with _ | e
  swap
  · cases retry <;>
      simp [tryBlock, tryResult, reachesWrite, passesCheck, hm, makeBackupIfExists_console,
        makeBackupIfExists_files, backupLines, pcFileOf, mobileFileOf]
  rcases sp with img | e
  swap
  · cases retry <;>
      simp [tryBlock, tryResult, reachesWrite, passesCheck, hm, makeBackupIfExists_console,
        makeBackupIfExists_files, backupLines, pcFileOf, mobileFileOf]
  rcases vm with _ | e
  swap
  · cases retry <;>
      simp [tryBlock, tryResult, reachesWrite, passesCheck, hm, makeBackupIfExists_console,
        makeBackupIfExists_files, backupLines, pcFileOf, mobileFileOf]
  rcases ua with _ | e
  swap
  · cases retry <;>
      simp [tryBlock, tryResult, reachesWrite, passesCheck, hm, makeBackupIfExists_console,
        makeBackupIfExists_files, backupLines, pcFileOf, mobileFileOf]
  rcases rl with _ | e
  swap
  · cases retry <;>
      simp [tryBlock, tryResult, reachesWrite, passesCheck, hm, makeBackupIfExists_console,
        makeBackupIfExists_files, backupLines, pcFileOf, mobileFileOf]
  rcases wm with _ | e
  swap
  · cases retry <;>
      simp [tryBlock, tryResult, reachesWrite, passesCheck, hm, makeBackupIfExists_console,
        makeBackupIfExists_files, backupLines, pcFileOf, mobileFileOf]
  rcases sm with img2 | e
  swap
  · cases retry <;>
      simp [tryBlock, tryResult, reachesWrite, passesCheck, hm, makeBackupIfExists_console,
        makeBackupIfExists_files, backupLines, pcFileOf, mobileFileOf]
  by_cases hf : JsObject.has s.failures url = true <;> rcases cl with _ | e <;>
    cases retry <;>
      simp [tryBlock, tryResult, reachesWrite, passesCheck, hm, hf, makeBackupIfExists_console,
        makeBackupIfExists_files, backupLines, pcFileOf, mobileFileOf]

theorem mem_backupLines (files : Path → Option String) (pc mob : Path) (t1 t2 : Nat)
    (url : String) (line : LogLine) (h : line ∈ backupLines files pc mob t1 t2) :
    visitLine url line := by
  unfold backupLines at h
  rcases List.mem_append.1 h with h | h <;> split at h
  · exact Or.inr (Or.inr (Or.inl ⟨_, List.mem_singleton.1 h⟩))
  · exact absurd h (List.not_mem_nil _)
  · exact Or.inr (Or.inr (Or.inl ⟨_, List.mem_singleton.1 h⟩))
  · exact absurd h (List.not_mem_nil _)

theorem visit_console (paths : Paths) (retry : Bool) (sc : PageScript) (url domain : String)
    (s : State) :
    ∃ extra, (visit paths retry sc url domain s).console =
        s.console ++ LogLine.crawling url :: extra ∧
      ∀ line ∈ extra, visitLine url line := by
  have hvisit : ∀ line ∈
      ((if (retry && passesCheck sc) = true then
          backupLines s.disk.files (pcFileOf paths domain) (mobileFileOf paths domain)
            sc.backupNowPc sc.backupNowMobile
        else []) ++
      (if reachesWrite sc = true then [LogLine.success url] else [])), visitLine url line := by
    intro line hl
    rcases List.mem_append.1 hl with h | h <;> split at h
    · exact mem_backupLines _ _ _ _ _ url line h
    · exact absurd h (List.not_mem_nil _)
    · exact Or.inr (Or.inl (List.mem_singleton.1 h))
    · exact absurd h (List.not_mem_nil _)
  have hT := tryBlock_console paths retry sc url domain s
  generalize ((if (retry && passesCheck sc) = true then
          backupLines s.disk.files (pcFileOf paths domain) (mobileFileOf paths domain)
            sc.backupNowPc sc.backupNowMobile
        else []) ++
      (if reachesWrite sc = true then [LogLine.success url] else [])) = extra at hvisit hT
  rw [visit_eq]
  cases tryResult sc with
  | none => exact ⟨extra, hT, hvisit⟩
  | some m =>
    refine ⟨extra ++ [LogLine.failed url m], ?_, ?_⟩
    · have hc : (saveProgress (catchBlock sc url m (tryBlock paths retry sc url domain s).1)).console
          = (tryBlock paths retry sc url domain s).1.console ++ [LogLine.failed url m] := by
        by_cases h : JsObject.has (tryBlock paths retry sc url domain s).1.metaData url = true <;>
          simp [saveProgress, catchBlock, h]
      rw [hc, hT]
      simp
    · intro line hl
      rcases List.mem_append.1 hl with h | h
      · exact hvisit line h
      · exact Or.inr (Or.inr (Or.inr ⟨m, List.mem_singleton.1 h⟩))

theorem forLoop_none_parses (paths : Paths) (env : Env) (args : List String) :
    ∀ (l : List String) (i : Nat) (s s1 : State),
      forLoop paths env args i l s = (s1, none) → ∀ u ∈ l, (env.hostname u).isSome = true := by
  intro l
  induction l with
  | nil => intro i s s1 _ u hu; exact absurd hu (List.not_mem_nil u)
  | cons url rest ih =>
    intro i s s1 h u hu
    cases hb : loopBody paths env args i url s with
    | error e => simp [forLoop, hb] at h
    | ok s2 =>
      simp only [forLoop, hb] at h
      rcases List.mem_cons.1 hu with rfl | hu
      · obtain ⟨domain, hd, -⟩ := loopBody_ok_cases paths env args i u s s2 hb
        simp [hd]
      · exact ih (i + 1) s2 s1 h u hu

theorem forLoop_all_skipped (paths : Paths) (env : Env) (args : List String)
    (hinc : skipCheckActive args = true) :
    ∀ (l : List String) (i : Nat) (s : State),
      (∀ u ∈ l, (env.hostname u).isSome = true ∧ JsObject.has s.metaData u = true) →
      forLoop paths env args i l s =
        ({ s with console := s.console ++ l.map LogLine.skipping, skip := s.skip + l.length },
          none) := by
  intro l
  induction l with
  | nil => intro i s _; simp [forLoop]
  | cons url rest ih =>
    intro i s h
    obtain ⟨hp, hm⟩ := h url (List.mem_cons_self _ _)
    obtain ⟨domain, hd⟩ := Option.isSome_iff_exists.1 hp
    have hb := loopBody_skip paths env args i url domain s hd (by simp [hinc, hm])
    simp only [forLoop, hb]
    have hi := ih (i + 1)
      { s with console := s.console ++ [LogLine.skipping url], skip := s.skip + 1 }
      (fun u hu => h u (List.mem_cons_of_mem _ hu))
    rw [hi]
    simp [Nat.add_assoc, Nat.add_comm 1]

theorem forLoop_incremental (paths : Paths) (env : Env) (args : List String)
    (hinc : skipCheckActive args = true) :
    ∀ (l : List String) (i : Nat) (s : State),
      (∀ u ∈ l, (env.hostname u).isSome = true) →
      ∃ s1, forLoop paths env args i l s = (s1, none) ∧
        (∀ u, JsObject.has s.metaData u = true →
          JsObject.get? s1.metaData u = JsObject.get? s.metaData u) ∧
        (∀ u, LogLine.crawling u ∈ s1.console →
          LogLine.crawling u ∈ s.console ∨ JsObject.has s.metaData u = false) ∧
        (∀ line ∈ s.console, line ∈ s1.console) ∧
        (∀ u ∈ l, JsObject.has s.metaData u = true → LogLine.skipping u ∈ s1.console) ∧
        s.skip + l.countP (fun u => JsObject.has s.metaData u) ≤ s1.skip := by
  intro l
  induction l with
  | nil =>
    intro i s _
    exact ⟨s, rfl, fun _ _ => rfl, fun _ h => Or.inl h, fun _ h => h,
      fun u hu => absurd hu (List.not_mem_nil u), by simp⟩
  | cons url rest ih =>
    intro i s hp
    obtain ⟨domain, hd⟩ := Option.isSome_iff_exists.1 (hp url (List.mem_cons_self _ _))
    have hrest : ∀ u ∈ rest, (env.hostname u).isSome = true :=
      fun u hu => hp u (List.mem_cons_of_mem _ hu)
    cases hm : JsObject.has s.metaData url with
    | true =>
      have hb := loopBody_skip paths env args i url domain s hd (by simp [hinc, hm])
      obtain ⟨s1, hl, h1, h2, h3, h4, h5⟩ := ih (i + 1)
        { s with console := s.console ++ [LogLine.skipping url], skip := s.skip + 1 } hrest
      refine ⟨s1, by simp only [forLoop, hb]; exact hl, h1, ?_, ?_, ?_, ?_⟩
      · intro u hu
        rcases h2 u hu with h | h
        · simp at h; exact Or.inl h
        · exact Or.inr h
      · intro line hline
        exact h3 line (by simp [hline])
      · intro u hu hmu
        rcases List.mem_cons.1 hu with rfl | hu
        · exact h3 _ (by simp)
        · exact h4 u hu hmu
      · simp only [List.countP_cons, hm, if_true] at h5 ⊢
        omega
    | false =>
      have hb := loopBody_visit paths env args i url domain s hd (by simp [hm])
      obtain ⟨extra, hcon, hextra⟩ :=
        visit_console paths (retryFailures args) (env.script i url) url domain s
      have hkeep : ∀ u, JsObject.has s.metaData u = true →
          JsObject.get? (visit paths (retryFailures args) (env.script i url) url domain
            s).metaData u = JsObject.get? s.metaData u := by
        intro u hu
        have hne : u ≠ url := by
          intro he; rw [he, hm] at hu; cases hu
        rw [visit_metaData_get, if_neg hne]
      obtain ⟨s1, hl, h1, h2, h3, h4, h5⟩ := ih (i + 1)
        (visit paths (retryFailures args) (env.script i url) url domain s) hrest
      have hhas : ∀ u, JsObject.has s.metaData u = true →
          JsObject.has (visit paths (retryFailures args) (env.script i url) url domain
            s).metaData u = true := by
        intro u hu
        simp only [JsObject.has, hkeep u hu]
        exact hu
      refine ⟨s1, by simp only [forLoop, hb]; exact hl, ?_, ?_, ?_, ?_, ?_⟩
      · intro u hu
        rw [h1 u (hhas u hu), hkeep u hu]
      · intro u hu
        rcases h2 u hu with h | h
        · rw [hcon] at h
          rcases List.mem_append.1 h with h | h
          · exact Or.inl h
          · rcases List.mem_cons.1 h with h | h
            · cases h; exact Or.inr hm
            · rcases hextra _ h with h | h | ⟨p, h⟩ | ⟨m, h⟩
              · cases h; exact Or.inr hm
              · cases h
              · cases h
              · cases h
        · right
          cases hu2 : JsObject.has s.metaData u with
          | false => rfl
          | true => rw [hhas u hu2] at h; cases h
      · intro line hline
        exact h3 line (by rw [hcon]; exact List.mem_append_left _ hline)
      · intro u hu hmu
        rcases List.mem_cons.1 hu with rfl | hu
        · rw [hm] at hmu; cases hmu
        · exact h4 u hu (hhas u hmu)
      · have hskip : (visit paths (retryFailures args) (env.script i url) url domain s).skip
            = s.skip := by
          rw [visit_eq]
          obtain ⟨-, -, -, -, -, hk, -⟩ :=
            tryBlock_spec paths (retryFailures args) (env.script i url) url domain s
          cases tryResult (env.script i url) with
          | none => exact hk
          | some m =>
            have := (catchBlock_counters (env.script i url) url m
              (tryBlock paths (retryFailures args) (env.script i url) url domain s).1).2.2
            simp only [saveProgress]
            rw [this, hk]
        have hmono : rest.countP (fun u => JsObject.has s.metaData u) ≤
            rest.countP (fun u => JsObject.has
              (visit paths (retryFailures args) (env.script i url) url domain s).metaData u) :=
          List.countP_mono_left (fun u _ hu => hhas u hu)
        simp only [List.countP_cons, hm] at h5 ⊢
        rw [hskip] at h5
        simp
        omega

/-- An incremental run that completes: its loop ran over the configured list from the
loaded state, every URL parsed, and the disk holds the final maps. -/
theorem main_incremental_completed (paths : Paths) (env : Env) (args urls : List String)
    (d : Disk)
    (hall : "--all" ∉ args) (hupd : "--update" ∉ args) (hretry : "--retry-failures" ∉ args)
    (hparse : ∀ u ∈ urls, (env.hostname u).isSome = true) :
    ∃ s1, forLoop paths env args 0 urls (initialState d) = (s1, none) ∧
      main paths env args urls d = { exit := .completed, state := finish args s1 } := by
  have hr : retryFailures args = false := by simpa [retryFailures] using hretry
  have ht := targetUrls_of_no_flags args urls (readFailures d) hupd hretry
  have ha := announce_of_no_flags args urls (initialState d) hall hupd hretry
  obtain ⟨s1, hl, -⟩ := forLoop_incremental paths env args
    (skipCheckActive_of_no_flags args hall hupd hretry) urls 0 (initialState d) hparse
  refine ⟨s1, hl, ?_⟩
  rcases main_cases paths env args urls d with ⟨hc, -⟩ | ⟨-, s2, r, hl2, h⟩
  · simp [hr] at hc
  · rw [ht, ha, hl] at hl2
    obtain ⟨rfl, rfl⟩ := Prod.mk.inj hl2
    rcases h with ⟨-, h⟩ | ⟨e, he, -⟩
    · exact h
    · cases he

theorem main_incremental_parses (paths : Paths) (env : Env) (args urls : List String)
    (d : Disk)
    (hall : "--all" ∉ args) (hupd : "--update" ∉ args) (hretry : "--retry-failures" ∉ args)
    (hdone : (main paths env args urls d).exit = .completed) :
    ∀ u ∈ urls, (env.hostname u).isSome = true := by
  have ht := targetUrls_of_no_flags args urls (readFailures d) hupd hretry
  have ha := announce_of_no_flags args urls (initialState d) hall hupd hretry
  rcases main_cases paths env args urls d with ⟨-, hm⟩ | ⟨-, s2, r, hl2, h⟩
  · rw [hm] at hdone; cases hdone
  · rw [ht, ha] at hl2
    rcases h with ⟨rfl, -⟩ | ⟨e, -, hm⟩
    · exact forLoop_none_parses paths env args urls 0 _ s2 hl2
    · rw [hm] at hdone; cases hdone

theorem forLoop_synced (paths : Paths) (env : Env) (args : List String) (l : List String)
    (i : Nat) (s s1 : State) (r : Option String) (hs : Synced s)
    (h : forLoop paths env args i l s = (s1, r)) : Synced s1 :=
  forLoop_invariant paths env args Synced
    (fun i url s s1 hs hb => loopBody_synced paths env args i url s s1 hs hb) l i s s1 r hs h

theorem initialState_synced (d : Disk) : Synced (initialState d) := ⟨rfl, rfl⟩

theorem SameOutcome.tryResult_eq {a b : PageScript} (h : SameOutcome a b) :
    tryResult a = tryResult b := by
  obtain ⟨h1, h2, h3, h4, h5, h6, h7, h8, h9, h10, h11, h12⟩ := h
  simp only [tryResult, h1, h2, h3, h4, h5, h6, h7, h8, h9, h10, h11, h12]

theorem SameOutcome.scrapedMeta_eq {a b : PageScript} (h : SameOutcome a b) :
    scrapedMeta a = scrapedMeta b := by
  obtain ⟨-, -, -, h4, -⟩ := h
  simp only [scrapedMeta, h4]

theorem visit_status_meta (paths : Paths) (retry : Bool) (sc : PageScript)
    (url domain : String) (s : State) (hostname : String → Option String)
    (page : String → PageScript) (hd : hostname url = some domain)
    (hsame : SameOutcome sc (page url)) (x : String) :
    (JsObject.get? (visit paths retry sc url domain s).metaData x).map eraseMetaTime =
      if x = url then outcomeMeta paths hostname page url
      else (JsObject.get? s.metaData x).map eraseMetaTime := by
  rw [visit_metaData_get]
  by_cases hx : x = url
  · simp only [hx, if_true, outcomeMeta, hd, ← hsame.tryResult_eq]
    cases tryResult sc with
    | none =>
      simp [recordOf, eraseMetaTime, hsame.scrapedMeta_eq]
    | some m => rfl
  · simp only [hx, if_false]

theorem visit_status_failures (paths : Paths) (retry : Bool) (sc : PageScript)
    (url domain : String) (s : State) (hostname : String → Option String)
    (page : String → PageScript) (hd : hostname url = some domain)
    (hsame : SameOutcome sc (page url)) (x : String) :
    (JsObject.get? (visit paths retry sc url domain s).failures x).map eraseFailTime =
      if x = url then outcomeFailure hostname page url
      else (JsObject.get? s.failures x).map eraseFailTime := by
  rw [visit_failures_get]
  by_cases hx : x = url
  · simp only [hx, if_true, outcomeFailure, hd, ← hsame.tryResult_eq]
    cases tryResult sc with
    | none => rfl
    | some m => simp [failureOf, eraseFailTime]
  · simp only [hx, if_false]

/-- The maps after the loop, key by key and timestamps ignored: a visited key holds the
outcome of its visit, every other key holds what it held before. -/
theorem forLoop_final (paths : Paths) (env : Env) (args : List String)
    (page : String → PageScript) (hfix : FixedOutcome env page) :
    ∀ (l : List String) (i : Nat) (s : State),
      (∀ u ∈ l, (env.hostname u).isSome = true) →
      ∃ s1, forLoop paths env args i l s = (s1, none) ∧
        (∀ x, visitedBy args l s.metaData x →
          (JsObject.get? s1.metaData x).map eraseMetaTime =
            outcomeMeta paths env.hostname page x ∧
          (JsObject.get? s1.failures x).map eraseFailTime =
            outcomeFailure env.hostname page x) ∧
        (∀ x, ¬ visitedBy args l s.metaData x →
          JsObject.get? s1.metaData x = JsObject.get? s.metaData x ∧
          JsObject.get? s1.failures x = JsObject.get? s.failures x) := by
  intro l
  induction l with
  | nil =>
    intro i s _
    exact ⟨s, rfl, fun x hx => absurd hx.1 (List.not_mem_nil x), fun x _ => ⟨rfl, rfl⟩⟩
  | cons url rest ih =>
    intro i s hp
    obtain ⟨domain, hd⟩ := Option.isSome_iff_exists.1 (hp url (List.mem_cons_self _ _))
    have hrest : ∀ u ∈ rest, (env.hostname u).isSome = true :=
      fun u hu => hp u (List.mem_cons_of_mem _ hu)
    cases hv : (skipCheckActive args && JsObject.has s.metaData url) with
    | true =>
      have hb := loopBody_skip paths env args i url domain s hd hv
      obtain ⟨s1, hl, h1, h2⟩ := ih (i + 1)
        { s with console := s.console ++ [LogLine.skipping url], skip := s.skip + 1 } hrest
      simp only [Bool.and_eq_true] at hv
      refine ⟨s1, by simp only [forLoop, hb]; exact hl, ?_, ?_⟩
      · intro x hx
        apply h1 x
        refine ⟨?_, hx.2⟩
        rcases List.mem_cons.1 hx.1 with rfl | h
        · rcases hx.2 with h | h
          · rw [hv.1] at h; cases h
          · rw [hv.2] at h; cases h
        · exact h
      · intro x hx
        apply h2 x
        intro hx2
        exact hx ⟨List.mem_cons_of_mem _ hx2.1, hx2.2⟩
    | false =>
      have hb := loopBody_visit paths env args i url domain s hd hv
      have hvis : skipCheckActive args = false ∨ JsObject.has s.metaData url = false := by
        cases ha : skipCheckActive args with
        | false => exact Or.inl rfl
        | true => right; simpa [ha] using hv
      obtain ⟨s1, hl, h1, h2⟩ := ih (i + 1)
        (visit paths (retryFailures args) (env.script i url) url domain s) hrest
      have hM := visit_status_meta paths (retryFailures args) (env.script i url) url domain s
        env.hostname page hd (hfix i url)
      have hF := visit_status_failures paths (retryFailures args) (env.script i url) url domain
        s env.hostname page hd (hfix i url)
      have hhas : ∀ x, x ≠ url →
          JsObject.has (visit paths (retryFailures args) (env.script i url) url domain
            s).metaData x = JsObject.has s.metaData x := by
        intro x hx
        rw [visit_has_metaData, if_neg hx]
      refine ⟨s1, by simp only [forLoop, hb]; exact hl, ?_, ?_⟩
      · intro x hx
        by_cases hxu : x = url
        · subst hxu
          by_cases hx2 : visitedBy args rest
              (visit paths (retryFailures args) (env.script i x) x domain s).metaData x
          · exact h1 x hx2
          · obtain ⟨e1, e2⟩ := h2 x hx2
            rw [e1, e2, hM x, hF x]
            simp
        · apply h1 x
          refine ⟨?_, ?_⟩
          · rcases List.mem_cons.1 hx.1 with h | h
            · exact absurd h hxu
            · exact h
          · rw [hhas x hxu]; exact hx.2
      · intro x hx
        have hxu : x ≠ url := by
          intro he
          apply hx
          rw [he]
          exact ⟨List.mem_cons_self _ _, hvis⟩
        have hx2 : ¬ visitedBy args rest
            (visit paths (retryFailures args) (env.script i url) url domain s).metaData x := by
          intro h
          apply hx
          refine ⟨List.mem_cons_of_mem _ h.1, ?_⟩
          rw [← hhas x hxu]; exact h.2
        obtain ⟨e1, e2⟩ := h2 x hx2
        rw [e1, e2, visit_metaData_get, visit_failures_get, if_neg hxu, if_neg hxu]
        exact ⟨rfl, rfl⟩

theorem targetUrls_of_not_retry (args urls : List String) (f g : JsObject FailureRecord)
    (h : retryFailures args = false) : targetUrls args urls f = targetUrls args urls g := by
  simp [targetUrls, h]

theorem targetUrls_of_retry (args urls : List String) (f : JsObject FailureRecord)
    (h : retryFailures args = true) : targetUrls args urls f = JsObject.keys f := by
  simp [targetUrls, h]

/-- The stored maps at the end of a run in which every target URL parses and the outcome
of a visit is a fixed function of the URL: the run is not left by an exception, a visited
key holds the outcome of its visit and every other key holds what was loaded. -/
theorem main_final (paths : Paths) (env : Env) (args urls : List String) (d : Disk)
    (page : String → PageScript) (hfix : FixedOutcome env page)
    (hparse : ∀ u ∈ targetUrls args urls (readFailures d), (env.hostname u).isSome = true) :
    (∀ e, (main paths env args urls d).exit ≠ .uncaught e) ∧
    (∀ x, visitedBy args (targetUrls args urls (readFailures d)) (readJSON d) x →
      (JsObject.get? (readJSON (main paths env args urls d).state.disk) x).map eraseMetaTime =
        outcomeMeta paths env.hostname page x ∧
      (JsObject.get? (readFailures (main paths env args urls d).state.disk) x).map
        eraseFailTime = outcomeFailure env.hostname page x) ∧
    (∀ x, ¬ visitedBy args (targetUrls args urls (readFailures d)) (readJSON d) x →
      JsObject.get? (readJSON (main paths env args urls d).state.disk) x =
        JsObject.get? (readJSON d) x ∧
      JsObject.get? (readFailures (main paths env args urls d).state.disk) x =
        JsObject.get? (readFailures d) x) := by
  rcases main_cases paths env args urls d with ⟨hc, hm⟩ | ⟨-, s1, r, hl, h⟩
  · rw [hm]
    simp only [Bool.and_eq_true, List.isEmpty_iff] at hc
    refine ⟨fun e h => Exit.noConfusion h, ?_, ?_⟩
    · intro x hx
      rw [hc.2] at hx
      exact absurd hx.1 (List.not_mem_nil x)
    · intro x _
      exact ⟨rfl, rfl⟩
  · obtain ⟨s2, hl2, h1, h2⟩ := forLoop_final paths env args page hfix
      (targetUrls args urls (readFailures d)) 0
      (announce args (targetUrls args urls (readFailures d)) (initialState d)) hparse
    rw [hl] at hl2
    obtain ⟨rfl, rfl⟩ := Prod.mk.inj hl2
    have hm : main paths env args urls d = { exit := .completed, state := finish args s1 } := by
      rcases h with ⟨-, h⟩ | ⟨e, he, -⟩
      · exact h
      · cases he
    have hsy : Synced s1 := forLoop_synced paths env args _ 0 _ s1 none
      (announce_synced args _ d) hl
    obtain ⟨a1, a2, -⟩ := announce_fields args (targetUrls args urls (readFailures d))
      (initialState d)
    have e1 : readJSON (finish args s1).disk = s1.metaData := hsy.1
    have e2 : readFailures (finish args s1).disk = s1.failures := hsy.2
    rw [a1] at h1 h2
    rw [a2] at h2
    rw [hm]
    simp only [e1, e2]
    exact ⟨fun e h => Exit.noConfusion h, h1, h2⟩


theorem has_iff_get?_ne_none {α : Type} (o : JsObject α) (k : String) :
    JsObject.has o k = true ↔ JsObject.get? o k ≠ none := by
  simp [JsObject.has, Option.isSome_iff_ne_none]

theorem SameOutcome.refl (a : PageScript) : SameOutcome a a :=
  ⟨rfl, rfl, rfl, rfl, rfl, rfl, rfl, rfl, rfl, rfl, rfl, rfl⟩

theorem disjointDisk_exclusive :
    Exclusive (readJSON disjointDisk) (readFailures disjointDisk) := by
  intro u h
  obtain ⟨h1, h2⟩ := h
  simp [readJSON, readFailures, disjointDisk, JsObject.has, JsObject.get?] at h1 h2
  rw [← h1] at h2
  exact absurd h2 (by decide)

/-! ## The claims -/

/-- C1: whenever the loop visits a URL (the URL parses and the skip test of line 170 is
false), in every mode and from every state, the iteration ends with its flush and right
after it exactly one of the two stored maps has a record for the URL: if the `try` block
ended without an error the metadata map has one and the failure map has none; if it threw
an error the failure map has a record carrying the error's message and the metadata map has
none. -/
theorem C1_visited_url_has_exactly_one_record (paths : Paths) (env : Env)
    (args : List String) (i : Nat) (url domain : String) (s : State)
    (hd : env.hostname url = some domain)
    (hv : (skipCheckActive args && JsObject.has s.metaData url) = false) :
    ∃ s1, loopBody paths env args i url s = .ok s1 ∧
      readJSON s1.disk = s1.metaData ∧ readFailures s1.disk = s1.failures ∧
      JsObject.has (readJSON s1.disk) url ≠ JsObject.has (readFailures s1.disk) url ∧
      match (tryBlock paths (retryFailures args) (env.script i url) url domain s).2 with
      | none =>
        JsObject.has (readJSON s1.disk) url = true ∧
        JsObject.has (readFailures s1.disk) url = false
      | some message =>
        JsObject.has (readJSON s1.disk) url = false ∧
        (JsObject.get? (readFailures s1.disk) url).map FailureRecord.error = some message := by
  refine ⟨_, loopBody_visit paths env args i url domain s hd hv, ?_⟩
  obtain ⟨hm, hf⟩ := visit_synced paths (retryFailures args) (env.script i url) url domain s
  have h1 := visit_metaData_get paths (retryFailures args) (env.script i url) url domain s url
  have h2 := visit_failures_get paths (retryFailures args) (env.script i url) url domain s url
  rw [(tryBlock_spec paths (retryFailures args) (env.script i url) url domain s).1]
  simp only [readJSON, readFailures, hm, hf, JsObject.has, h1, h2, if_true]
  cases tryResult (env.script i url) <;> simp [failureOf]

theorem C1_visited_url_has_exactly_one_record_witness :
    friendlyEnv.hostname "https://a.test/" = some "a.test" ∧
    (skipCheckActive [] && JsObject.has (initialState emptyDisk).metaData "https://a.test/")
      = false ∧
    ∃ s1, loopBody examplePaths friendlyEnv [] 0 "https://a.test/" (initialState emptyDisk)
        = .ok s1 ∧
      readJSON s1.disk = s1.metaData ∧ readFailures s1.disk = s1.failures ∧
      JsObject.has (readJSON s1.disk) "https://a.test/" ≠
        JsObject.has (readFailures s1.disk) "https://a.test/" ∧
      match (tryBlock examplePaths (retryFailures []) (friendlyEnv.script 0 "https://a.test/")
          "https://a.test/" "a.test" (initialState emptyDisk)).2 with
      | none =>
        JsObject.has (readJSON s1.disk) "https://a.test/" = true ∧
        JsObject.has (readFailures s1.disk) "https://a.test/" = false
      | some message =>
        JsObject.has (readJSON s1.disk) "https://a.test/" = false ∧
        (JsObject.get? (readFailures s1.disk) "https://a.test/").map FailureRecord.error
          = some message :=
  ⟨by decide, by decide,
    C1_visited_url_has_exactly_one_record examplePaths friendlyEnv [] 0 "https://a.test/"
      "a.test" (initialState emptyDisk) (by decide) (by decide)⟩

/-- C6: the target list is the key list of the loaded failure map when `--retry-failures`
is given; otherwise the one-element list `[url]` when `--update url` is given; otherwise
the configured list, in its order (with `--all` and in the default mode alike).  The skip
check is active exactly when none of `--all`, `--update url`, `--retry-failures` is
selected, and when it is inactive every target URL that parses is visited, never
skipped.  Here `--update url` given means that the first `--update` is followed by a
non-empty argument. -/
theorem C6_target_list_and_skip_check (args urls : List String)
    (failures : JsObject FailureRecord) :
    ("--retry-failures" ∈ args → targetUrls args urls failures = JsObject.keys failures) ∧
    ("--retry-failures" ∉ args → ∀ url, UpdateGiven args url →
      targetUrls args urls failures = [url]) ∧
    ("--retry-failures" ∉ args → (¬ ∃ url, UpdateGiven args url) →
      targetUrls args urls failures = urls) ∧
    (skipCheckActive args = true ↔
      "--all" ∉ args ∧ (¬ ∃ url, UpdateGiven args url) ∧ "--retry-failures" ∉ args) ∧
    (skipCheckActive args = false →
      ∀ (paths : Paths) (env : Env) (i : Nat) (url domain : String) (s : State),
        env.hostname url = some domain →
        loopBody paths env args i url s =
          .ok (visit paths (retryFailures args) (env.script i url) url domain s)) := by
  refine ⟨?_, ?_, ?_, ?_, ?_⟩
  · intro h
    simp [targetUrls, retryFailures, h]
  · rintro h url ⟨pre, post, rfl, hpre, hne⟩
    have hu := (updateUrl_some_iff _ url).2 ⟨pre, post, rfl, hpre⟩
    have hr : retryFailures (pre ++ "--update" :: url :: post) = false := by
      simpa [retryFailures] using h
    simp [targetUrls, hr, hu, hne]
  · intro h hno
    have hr : retryFailures args = false := by simpa [retryFailures] using h
    have ht : truthy (updateUrl args) = false := by
      cases htr : truthy (updateUrl args) with
      | false => rfl
      | true => exact absurd ((truthy_updateUrl_iff args).1 htr) hno
    cases hu : updateUrl args with
    | none => simp [targetUrls, hr, hu]
    | some u =>
      have : u = "" := by simpa [hu, truthy] using ht
      simp [targetUrls, hr, hu, this]
  · rw [← truthy_updateUrl_iff]
    simp [skipCheckActive, forceAll, retryFailures, and_assoc]
  · intro h paths env i url domain s hd
    exact loopBody_visit paths env args i url domain s hd (by simp [h])


theorem C6_target_list_and_skip_check_witness :
    "--retry-failures" ∉ ["--update", "https://a.test/"] ∧
    UpdateGiven ["--update", "https://a.test/"] "https://a.test/" ∧
    targetUrls ["--update", "https://a.test/"] exampleUrls [] = ["https://a.test/"] ∧
    skipCheckActive ["--update", "https://a.test/"] = false :=
  have hr : "--retry-failures" ∉ ["--update", "https://a.test/"] := by decide
  have hu : UpdateGiven ["--update", "https://a.test/"] "https://a.test/" :=
    ⟨[], [], rfl, by simp, by decide⟩
  ⟨hr, hu,
    (C6_target_list_and_skip_check ["--update", "https://a.test/"] exampleUrls []).2.1 hr
      "https://a.test/" hu,
    by decide⟩

/-- C7: in incremental mode (none of `--all`, `--update`, `--retry-failures` on the command
line), processing a target URL that already has a record in the metadata map opens no page
and prints no `Crawling` line, leaves the metadata map, the failure map and the disk
unchanged, and adds exactly one to the skip counter while the success and fail counters
stay as they were.  With a one-URL list whose URL is already in the stored metadata map
the run completes with the summary success 0, skip 1, fail 0. -/
theorem C7_incremental_skip_is_a_frame (paths : Paths) (env : Env) (args : List String)
    (url domain : String)
    (hall : "--all" ∉ args) (hupd : "--update" ∉ args) (hretry : "--retry-failures" ∉ args)
    (hd : env.hostname url = some domain) :
    (∀ (i : Nat) (s : State), JsObject.has s.metaData url = true →
      ∃ s1, loopBody paths env args i url s = .ok s1 ∧
        s1.console = s.console ++ [LogLine.skipping url] ∧
        s1.openPages = s.openPages ∧ s1.disk = s.disk ∧
        s1.metaData = s.metaData ∧ s1.failures = s.failures ∧
        s1.skip = s.skip + 1 ∧ s1.success = s.success ∧ s1.fail = s.fail) ∧
    (∀ d : Disk, JsObject.has (readJSON d) url = true →
      (main paths env args [url] d).exit = .completed ∧
      (main paths env args [url] d).state.disk.reportFile =
        some { args := args, summary := { success := 0, skip := 1, fail := 0 } } ∧
      (main paths env args [url] d).state.console =
        [LogLine.skipping url, LogLine.taskComplete 0 1 0] ∧
      (main paths env args [url] d).state.metaData = readJSON d ∧
      (main paths env args [url] d).state.failures = readFailures d) := by
  have hs := skipCheckActive_of_no_flags args hall hupd hretry
  constructor
  · intro i s hm
    exact ⟨_, loopBody_skip paths env args i url domain s hd (by simp [hs, hm]),
      rfl, rfl, rfl, rfl, rfl, rfl, rfl, rfl⟩
  · intro d hm
    have hr : retryFailures args = false := by simpa [retryFailures] using hretry
    have hb := loopBody_skip paths env args 0 url domain (initialState d) hd
      (by simp [hs, initialState, hm])
    simp only [initialState] at hb
    simp [main, hr, targetUrls_of_no_flags args _ _ hupd hretry,
      announce_of_no_flags args _ _ hall hupd hretry, forLoop, hb, finish, initialState]

theorem C7_incremental_skip_is_a_frame_witness :
    "--all" ∉ ([] : List String) ∧ "--update" ∉ ([] : List String) ∧
    "--retry-failures" ∉ ([] : List String) ∧
    friendlyEnv.hostname "https://a.test/" = some "a.test" ∧
    (∀ (i : Nat) (s : State), JsObject.has s.metaData "https://a.test/" = true →
      ∃ s1, loopBody examplePaths friendlyEnv [] i "https://a.test/" s = .ok s1 ∧
        s1.console = s.console ++ [LogLine.skipping "https://a.test/"] ∧
        s1.openPages = s.openPages ∧ s1.disk = s.disk ∧
        s1.metaData = s.metaData ∧ s1.failures = s.failures ∧
        s1.skip = s.skip + 1 ∧ s1.success = s.success ∧ s1.fail = s.fail) :=
  ⟨by decide, by decide, by decide, by decide,
    (C7_incremental_skip_is_a_frame examplePaths friendlyEnv [] "https://a.test/" "a.test"
      (by decide) (by decide) (by decide) (by decide)).1⟩

/-- C8: for a page whose `newPage`, navigation, image wait and scrape all resolve, and
whose later browser calls do not themselves reject with that very message, the visit is
rejected with the message `Failed to scrape meta information` if and only if the scraped
title and the scraped description are both the empty string.  A page titled `A` without a
description tag is accepted: its stored record has `meta.title = "A"` and
`meta.description = ""`, and the summary is success 1, skip 0, fail 0.  A page with an
empty title and no description tag gets no metadata record but a failure record with that
message, and the summary is success 0, skip 0, fail 1. -/
theorem C8_scrape_rejected_iff_title_and_description_empty (paths : Paths) (retry : Bool)
    (sc : PageScript) (url domain : String) (s : State) (doc : Document)
    (h1 : sc.newPage = .resolved ()) (h2 : sc.goto = .resolved ())
    (h3 : sc.waitImages = .resolved ()) (h4 : sc.evaluate = .resolved doc)
    (hext : scrapeFailedMessage ∉ laterMessages sc) :
    ((tryBlock paths retry sc url domain s).2 = some "Failed to scrape meta information" ↔
      (scrapeMeta doc).title = "" ∧ (scrapeMeta doc).description = "") ∧
    ((main examplePaths friendlyEnv [] ["https://a.test/"] emptyDisk).exit = .completed ∧
      (JsObject.get? (readJSON (main examplePaths friendlyEnv [] ["https://a.test/"]
          emptyDisk).state.disk) "https://a.test/").map MetadataRecord.meta
        = some { title := "A", description := "" } ∧
      JsObject.get? (readFailures (main examplePaths friendlyEnv [] ["https://a.test/"]
          emptyDisk).state.disk) "https://a.test/" = none ∧
      (main examplePaths friendlyEnv [] ["https://a.test/"] emptyDisk).state.disk.reportFile
        = some { args := [], summary := { success := 1, skip := 0, fail := 0 } }) ∧
    ((main examplePaths blankEnv [] ["https://a.test/"] emptyDisk).exit = .completed ∧
      JsObject.get? (readJSON (main examplePaths blankEnv [] ["https://a.test/"]
          emptyDisk).state.disk) "https://a.test/" = none ∧
      (JsObject.get? (readFailures (main examplePaths blankEnv [] ["https://a.test/"]
          emptyDisk).state.disk) "https://a.test/").map FailureRecord.error
        = some "Failed to scrape meta information" ∧
      (main examplePaths blankEnv [] ["https://a.test/"] emptyDisk).state.disk.reportFile
        = some { args := [], summary := { success := 0, skip := 0, fail := 1 } }) := by
  refine ⟨?_, by decide, by decide⟩
  rw [(tryBlock_spec paths retry sc url domain s).1, ← metaIsEmpty_iff]
  exact tryResult_scrape_iff sc doc h1 h2 h3 h4 hext

theorem C8_scrape_rejected_iff_title_and_description_empty_witness :
    (resolvingScript (titledDocument "")).newPage = .resolved () ∧
    (resolvingScript (titledDocument "")).goto = .resolved () ∧
    (resolvingScript (titledDocument "")).waitImages = .resolved () ∧
    scrapeFailedMessage ∉ laterMessages (resolvingScript (titledDocument "")) ∧
    ((tryBlock examplePaths false (resolvingScript (titledDocument "")) "https://a.test/"
        "a.test" (initialState emptyDisk)).2 = some "Failed to scrape meta information" ↔
      (scrapeMeta (titledDocument "")).title = "" ∧
      (scrapeMeta (titledDocument "")).description = "") :=
  ⟨rfl, rfl, rfl, by decide,
    (C8_scrape_rejected_iff_title_and_description_empty examplePaths false
      (resolvingScript (titledDocument "")) "https://a.test/" "a.test"
      (initialState emptyDisk) (titledDocument "") rfl rfl rfl rfl (by decide)).1⟩

/-- C2: the loop is not immune to every per-URL error.  With `--all` and the target list
`["not a url", "https://a.test/"]` the constructor call `new URL(url)` of line 167 throws
outside the `try` block: the run ends with an uncaught `Invalid URL`, no failure record is
made, the second URL is never crawled, the browser stays open and no report is written.
And when `page.close()` rejects after line 245 has counted the success, the same URL is
counted as failed too: one target URL, summary success 1, skip 0, fail 1. -/
theorem C2_unparsable_target_aborts_the_run :
    (main examplePaths friendlyEnv ["--all"] ["not a url", "https://a.test/"] emptyDisk).exit
      = .uncaught "Invalid URL" ∧
    (main examplePaths friendlyEnv ["--all"] ["not a url", "https://a.test/"]
      emptyDisk).state.disk.reportFile = none ∧
    (main examplePaths friendlyEnv ["--all"] ["not a url", "https://a.test/"]
      emptyDisk).state.failures = [] ∧
    (main examplePaths friendlyEnv ["--all"] ["not a url", "https://a.test/"]
      emptyDisk).state.console = [LogLine.fullUpdate] ∧
    (main examplePaths friendlyEnv ["--all"] ["not a url", "https://a.test/"]
      emptyDisk).state.browserOpen = true ∧
    (main examplePaths stickyEnv ["--all"] ["https://a.test/"] emptyDisk).state.disk.reportFile
      = some { args := ["--all"], summary := { success := 1, skip := 0, fail := 1 } } := by
  decide

/-- C4: a visit that fails does not close its page.  Starting with no open page, one URL
whose navigation times out is recorded as a failure and leaves one page open; two such
URLs leave two pages open when the loop ends.  A visit that succeeds closes its page. -/
theorem C4_failed_visit_leaves_its_page_open :
    (initialState emptyDisk).openPages = 0 ∧
    (∃ s1, loopBody examplePaths hostileEnv ["--all"] 0 "https://a.test/"
        (initialState emptyDisk) = .ok s1 ∧
      s1.openPages = 1 ∧
      (JsObject.get? s1.failures "https://a.test/").map FailureRecord.error
        = some "Navigation timeout") ∧
    (forLoop examplePaths hostileEnv ["--all"] 0 ["https://a.test/", "https://b.test/"]
      (initialState emptyDisk)).1.openPages = 2 ∧
    (∃ s1, loopBody examplePaths friendlyEnv ["--all"] 0 "https://a.test/"
        (initialState emptyDisk) = .ok s1 ∧ s1.openPages = 0) := by
  refine ⟨rfl, ⟨_, rfl, by decide, by decide⟩, by decide, ⟨_, rfl, by decide⟩⟩

/-- C3 (as amended): in retry-failures mode, once an attempt has got past `newPage`,
navigation, the image wait and the metadata check (a non-empty title or description), then
whatever the later steps do - screenshot or reload failure, or success - a file that was
at the PC or mobile screenshot destination before the attempt is afterwards held by a
backup file in the same directory named `base-backup-epochMillis ext`, the clock value
being the one read by the backup call that moved it. -/
theorem C3_backup_made_once_the_screenshot_stage_is_reached (paths : Paths) (env : Env)
    (args : List String) (i : Nat) (url domain : String) (s : State) (doc : Document)
    (hretry : "--retry-failures" ∈ args)
    (hd : env.hostname url = some domain)
    (h1 : (env.script i url).newPage = .resolved ())
    (h2 : (env.script i url).goto = .resolved ())
    (h3 : (env.script i url).waitImages = .resolved ())
    (h4 : (env.script i url).evaluate = .resolved doc)
    (hmeta : ¬ ((scrapeMeta doc).title = "" ∧ (scrapeMeta doc).description = "")) :
    ∃ s1, loopBody paths env args i url s = .ok s1 ∧
      (∀ old, s.disk.files (pcFileOf paths domain) = some old →
        s1.disk.files (backupPathOf (pcFileOf paths domain) (env.script i url).backupNowPc)
          = some old) ∧
      (∀ old, s.disk.files (mobileFileOf paths domain) = some old →
        ∃ now, (now = (env.script i url).backupNowMobile ∨
            now = (env.script i url).backupNowPc) ∧
          s1.disk.files (backupPathOf (mobileFileOf paths domain) now) = some old) ∧
      (∀ (f : Path) (now : Nat),
        (backupPathOf f now).dir = dirname f ∧
        (backupPathOf f now).name =
          basename f (extname f) ++ "-backup-" ++ toString now ++ extname f) := by
  have hr : retryFailures args = true := by simpa [retryFailures] using hretry
  have hs : (skipCheckActive args && JsObject.has s.metaData url) = false := by
    simp [skipCheckActive, hr]
  have hm : metaIsEmpty (scrapeMeta doc) = false := by
    cases hme : metaIsEmpty (scrapeMeta doc) with
    | false => rfl
    | true => exact absurd ((metaIsEmpty_iff _).1 hme) hmeta
  have hname : (mobileFileOf paths domain).name = (pcFileOf paths domain).name := rfl
  refine ⟨_, loopBody_visit paths env args i url domain s hd hs, ?_, ?_, fun f now => ⟨rfl, rfl⟩⟩
  · intro old hold
    rw [visit_files, hr, tryBlock_files_after_check paths _ url domain s doc h1 h2 h3 h4 hm _
      (backupPathOf_ne _ _ _ rfl) (backupPathOf_ne _ _ _ hname)]
    exact backupFiles_pc _ _ _ _ _ old hname hold
  · intro old hold
    rcases backupFiles_mobile s.disk.files (pcFileOf paths domain) (mobileFileOf paths domain)
      (env.script i url).backupNowPc (env.script i url).backupNowMobile old hname hold with
      h | ⟨he, h⟩
    · refine ⟨_, Or.inl rfl, ?_⟩
      rw [visit_files, hr, tryBlock_files_after_check paths _ url domain s doc h1 h2 h3 h4 hm _
        (backupPathOf_ne _ _ _ hname.symm) (backupPathOf_ne _ _ _ rfl)]
      exact h
    · refine ⟨_, Or.inr rfl, ?_⟩
      rw [he, visit_files, hr,
        tryBlock_files_after_check paths _ url domain s doc h1 h2 h3 h4 hm _
          (backupPathOf_ne _ _ _ rfl) (backupPathOf_ne _ _ _ hname)]
      exact h

/-- C3 fails as stated: in a retry run whose navigation times out, the old PC screenshot
of the retried host is still at its destination afterwards and it is the only file on the
disk, so no backup file exists although the attempt was made and counted as failed. -/
theorem C3_no_backup_when_navigation_fails :
    failedOnceDisk.files (pathJoin "screenshots/pc" "a.test.png") = some "old pc image" ∧
    targetUrls ["--retry-failures"] exampleUrls (readFailures failedOnceDisk)
      = ["https://a.test/"] ∧
    (main examplePaths hostileEnv ["--retry-failures"] exampleUrls failedOnceDisk).exit
      = .completed ∧
    (main examplePaths hostileEnv ["--retry-failures"] exampleUrls
      failedOnceDisk).state.disk.reportFile
      = some { args := ["--retry-failures"], summary := { success := 0, skip := 0, fail := 1 } } ∧
    ∀ p : Path,
      (main examplePaths hostileEnv ["--retry-failures"] exampleUrls
        failedOnceDisk).state.disk.files p
        = if p = pathJoin "screenshots/pc" "a.test.png" then some "old pc image" else none := by
  refine ⟨by decide, by decide, by decide, by decide, fun p => rfl⟩


theorem C3_backup_made_once_the_screenshot_stage_is_reached_witness :
    "--retry-failures" ∈ ["--retry-failures"] ∧
    friendlyEnv.hostname "https://a.test/" = some "a.test" ∧
    (initialState failedOnceDisk).disk.files (pcFileOf examplePaths "a.test")
      = some "old pc image" ∧
    ∃ s1, loopBody examplePaths friendlyEnv ["--retry-failures"] 0 "https://a.test/"
        (initialState failedOnceDisk) = .ok s1 ∧
      s1.disk.files (pathJoin "screenshots/pc" "a.test-backup-1735689600000.png")
        = some "old pc image" :=
  ⟨by decide, by decide, by decide,
    match C3_backup_made_once_the_screenshot_stage_is_reached examplePaths friendlyEnv
      ["--retry-failures"] 0 "https://a.test/" "a.test" (initialState failedOnceDisk)
      (titledDocument "A") (by decide) (by decide) rfl rfl rfl rfl (by decide) with
    | ⟨s1, h, hpc, _⟩ => ⟨s1, h, hpc "old pc image" (by decide)⟩⟩

/-- C5 (as amended): when the loaded metadata map and failure map share no key, then in
every mode and for every URL list, after each of the run's loop iterations (hence after
every flush) no URL is a key of both stored maps and every target URL processed so far is
a key of exactly one of them; and when the run ends without an uncaught exception no URL
is a key of both and every URL of the target list is a key of exactly one. -/
theorem C5_exclusive_maps_and_processed_targets_in_exactly_one (paths : Paths) (env : Env)
    (args urls : List String) (d : Disk)
    (hdisj : Exclusive (readJSON d) (readFailures d)) :
    (∀ (k : Nat) (s1 : State),
      forLoop paths env args 0 ((targetUrls args urls (readFailures d)).take k)
        (announce args (targetUrls args urls (readFailures d)) (initialState d))
        = (s1, none) →
      Exclusive (readJSON s1.disk) (readFailures s1.disk) ∧
      ∀ u ∈ (targetUrls args urls (readFailures d)).take k,
        InExactlyOne (readJSON s1.disk) (readFailures s1.disk) u) ∧
    ((∀ e, (main paths env args urls d).exit ≠ .uncaught e) →
      Exclusive (readJSON (main paths env args urls d).state.disk)
        (readFailures (main paths env args urls d).state.disk) ∧
      ∀ u ∈ targetUrls args urls (readFailures d),
        InExactlyOne (readJSON (main paths env args urls d).state.disk)
          (readFailures (main paths env args urls d).state.disk) u) := by
  constructor
  · intro k s1 h
    obtain ⟨hsy, hex, hall, -⟩ := forLoop_exactlyOne paths env args _ 0 _ s1 none
      (announce_synced args _ d) (announce_exclusive args _ d hdisj) h
    rw [hsy.1, hsy.2]
    exact ⟨hex, hall rfl⟩
  · intro hexit
    rcases main_cases paths env args urls d with ⟨hc, hm⟩ | ⟨-, s1, r, hl, ⟨rfl, hm⟩ | ⟨e, rfl, hm⟩⟩
    · rw [hm]
      simp only [Bool.and_eq_true, List.isEmpty_iff] at hc
      refine ⟨hdisj, fun u hu => ?_⟩
      rw [hc.2] at hu
      exact absurd hu (List.not_mem_nil u)
    · rw [hm]
      obtain ⟨hsy, hex, hall, -⟩ := forLoop_exactlyOne paths env args _ 0 _ s1 none
        (announce_synced args _ d) (announce_exclusive args _ d hdisj) hl
      have h1 : readJSON (finish args s1).disk = s1.metaData := hsy.1
      have h2 : readFailures (finish args s1).disk = s1.failures := hsy.2
      simp only [h1, h2]
      exact ⟨hex, hall rfl⟩
    · rw [hm] at hexit
      exact absurd rfl (hexit e)


theorem C5_exclusive_maps_and_processed_targets_in_exactly_one_witness :
    Exclusive (readJSON disjointDisk) (readFailures disjointDisk) ∧
    (∃ s1,
      forLoop examplePaths friendlyEnv ["--all"] 0
        ((targetUrls ["--all"] ["https://a.test/", "https://b.test/"]
          (readFailures disjointDisk)).take 1)
        (announce ["--all"]
          (targetUrls ["--all"] ["https://a.test/", "https://b.test/"]
            (readFailures disjointDisk))
          (initialState disjointDisk)) = (s1, none) ∧
      s1.disk.metaFile = some s1.metaData ∧
      s1.disk.failuresFile = some [] ∧
      "https://a.test/" ∈ (targetUrls ["--all"] ["https://a.test/", "https://b.test/"]
        (readFailures disjointDisk)).take 1 ∧
      Exclusive (readJSON s1.disk) (readFailures s1.disk) ∧
      ∀ u ∈ (targetUrls ["--all"] ["https://a.test/", "https://b.test/"]
          (readFailures disjointDisk)).take 1,
        InExactlyOne (readJSON s1.disk) (readFailures s1.disk) u) ∧
    (main examplePaths friendlyEnv ["--all"] ["https://a.test/", "https://b.test/"]
      disjointDisk).exit = .completed ∧
    (main examplePaths friendlyEnv ["--all"] ["https://a.test/", "https://b.test/"]
      disjointDisk).state.disk.reportFile
      = some { args := ["--all"], summary := { success := 2, skip := 0, fail := 0 } } ∧
    Exclusive
      (readJSON (main examplePaths friendlyEnv ["--all"]
        ["https://a.test/", "https://b.test/"] disjointDisk).state.disk)
      (readFailures (main examplePaths friendlyEnv ["--all"]
        ["https://a.test/", "https://b.test/"] disjointDisk).state.disk) ∧
    ∀ u ∈ targetUrls ["--all"] ["https://a.test/", "https://b.test/"]
        (readFailures disjointDisk),
      InExactlyOne
        (readJSON (main examplePaths friendlyEnv ["--all"]
          ["https://a.test/", "https://b.test/"] disjointDisk).state.disk)
        (readFailures (main examplePaths friendlyEnv ["--all"]
          ["https://a.test/", "https://b.test/"] disjointDisk).state.disk) u :=
  have h := C5_exclusive_maps_and_processed_targets_in_exactly_one examplePaths friendlyEnv
    ["--all"] ["https://a.test/", "https://b.test/"] disjointDisk disjointDisk_exclusive
  have hdone : (main examplePaths friendlyEnv ["--all"]
      ["https://a.test/", "https://b.test/"] disjointDisk).exit = .completed := by decide
  have hexit : ∀ e, (main examplePaths friendlyEnv ["--all"]
      ["https://a.test/", "https://b.test/"] disjointDisk).exit ≠ .uncaught e :=
    fun e he => Exit.noConfusion (hdone.symm.trans he)
  ⟨disjointDisk_exclusive,
    ⟨_, rfl, by decide, by decide, by decide, (h.1 1 _ rfl).1, (h.1 1 _ rfl).2⟩,
    hdone, by decide, (h.2 hexit).1, (h.2 hexit).2⟩

/-- C5 fails as stated, in two ways.  Loaded maps that both hold `https://b.test/` still
both hold it after a completed `--update https://a.test/` run.  And in a `--all` run over
two URLs from an empty disk, after the first flush the second target URL is a key of
neither map. -/
theorem C5_fails_on_overlapping_load_and_on_unprocessed_targets :
    ((main examplePaths friendlyEnv ["--update", "https://a.test/"] exampleUrls
        overlappingDisk).exit = .completed ∧
      JsObject.has (readJSON (main examplePaths friendlyEnv ["--update", "https://a.test/"]
        exampleUrls overlappingDisk).state.disk) "https://b.test/" = true ∧
      JsObject.has (readFailures (main examplePaths friendlyEnv ["--update", "https://a.test/"]
        exampleUrls overlappingDisk).state.disk) "https://b.test/" = true) ∧
    ("https://b.test/" ∈
        targetUrls ["--all"] ["https://a.test/", "https://b.test/"] (readFailures emptyDisk) ∧
      ∃ s1, forLoop examplePaths friendlyEnv ["--all"] 0
          ((targetUrls ["--all"] ["https://a.test/", "https://b.test/"]
            (readFailures emptyDisk)).take 1)
          (announce ["--all"]
            (targetUrls ["--all"] ["https://a.test/", "https://b.test/"]
              (readFailures emptyDisk))
            (initialState emptyDisk)) = (s1, none) ∧
        s1.disk.metaFile = some s1.metaData ∧
        JsObject.has (readJSON s1.disk) "https://a.test/" = true ∧
        JsObject.has (readJSON s1.disk) "https://b.test/" = false ∧
        JsObject.has (readFailures s1.disk) "https://b.test/" = false) := by
  refine ⟨by decide, by decide, ⟨_, rfl, by decide, by decide, by decide, by decide⟩⟩

/-- C10 (as amended): after an incremental run that completed, a second incremental run
with the same URL list (and the same URL parser) completes too and skips every URL that
the first run left with a metadata record: it prints no `Crawling` line for such a URL,
leaves its record as it was, prints a `Skipping` line for each one in the list, and its
summary's skip count is at least the number of list entries with such a record.  Only
URLs left without a record are visited.  When the first run left a record for every URL of
the list, the second run visits zero URLs, leaves both maps unchanged and reports
success 0, skip = length of the list, fail 0. -/
theorem C10_second_incremental_run_skips_recorded_urls (paths : Paths) (env1 env2 : Env)
    (args urls : List String) (d : Disk)
    (hall : "--all" ∉ args) (hupd : "--update" ∉ args) (hretry : "--retry-failures" ∉ args)
    (hhost : env2.hostname = env1.hostname)
    (hdone : (main paths env1 args urls d).exit = .completed) :
    (secondRun paths env1 env2 args urls d).exit = .completed ∧
    (∀ u, JsObject.has (main paths env1 args urls d).state.metaData u = true →
      LogLine.crawling u ∉ (secondRun paths env1 env2 args urls d).state.console ∧
      JsObject.get? (secondRun paths env1 env2 args urls d).state.metaData u =
        JsObject.get? (main paths env1 args urls d).state.metaData u) ∧
    (∀ u ∈ urls, JsObject.has (main paths env1 args urls d).state.metaData u = true →
      LogLine.skipping u ∈ (secondRun paths env1 env2 args urls d).state.console) ∧
    (∃ summary, (secondRun paths env1 env2 args urls d).state.disk.reportFile
        = some { args := args, summary := summary } ∧
      urls.countP (fun u => JsObject.has (main paths env1 args urls d).state.metaData u)
        ≤ summary.skip) ∧
    ((∀ u ∈ urls, JsObject.has (main paths env1 args urls d).state.metaData u = true) →
      (∀ u, LogLine.crawling u ∉ (secondRun paths env1 env2 args urls d).state.console) ∧
      (secondRun paths env1 env2 args urls d).state.metaData =
        (main paths env1 args urls d).state.metaData ∧
      (secondRun paths env1 env2 args urls d).state.failures =
        (main paths env1 args urls d).state.failures ∧
      (secondRun paths env1 env2 args urls d).state.disk.reportFile =
        some { args := args, summary := { success := 0, skip := urls.length, fail := 0 } }) := by
  have hparse1 := main_incremental_parses paths env1 args urls d hall hupd hretry hdone
  have hparse2 : ∀ u ∈ urls, (env2.hostname u).isSome = true := by
    intro u hu; rw [hhost]; exact hparse1 u hu
  have hinc := skipCheckActive_of_no_flags args hall hupd hretry
  obtain ⟨s1, hl1, hm1⟩ := main_incremental_completed paths env1 args urls d hall hupd hretry
    hparse1
  have hsy1 : Synced s1 := forLoop_synced paths env1 args urls 0 _ s1 none
    (initialState_synced d) hl1
  obtain ⟨s2, hl2, hm2⟩ := main_incremental_completed paths env2 args urls (finish args s1).disk
    hall hupd hretry hparse2
  have hinit : (initialState (finish args s1).disk).metaData = s1.metaData := hsy1.1
  have hinitf : (initialState (finish args s1).disk).failures = s1.failures := hsy1.2
  obtain ⟨s2', hl2', k1, k2, k3, k4, k5⟩ := forLoop_incremental paths env2 args hinc urls 0
    (initialState (finish args s1).disk) hparse2
  rw [hl2] at hl2'
  obtain ⟨rfl, -⟩ := Prod.mk.inj hl2'
  have hsecond : secondRun paths env1 env2 args urls d =
      { exit := .completed, state := finish args s2 } := by
    unfold secondRun; rw [hm1]; exact hm2
  rw [hsecond, hm1]
  have hfm : (finish args s1).metaData = s1.metaData := rfl
  have hfm2 : (finish args s2).metaData = s2.metaData := rfl
  have hcon2 : (finish args s2).console =
      s2.console ++ [LogLine.taskComplete s2.success s2.skip s2.fail] := rfl
  have hnocrawl : ∀ u, JsObject.has s1.metaData u = true →
      LogLine.crawling u ∉ (finish args s2).console := by
    intro u hu hc
    rw [hcon2] at hc
    rcases List.mem_append.1 hc with hc | hc
    · rcases k2 u hc with h | h
      · exact absurd h (List.not_mem_nil _)
      · rw [hinit, hu] at h; cases h
    · cases List.mem_singleton.1 hc
  simp only [hfm, hfm2]
  refine ⟨trivial, ?_, ?_, ?_, ?_⟩
  · intro u hu
    refine ⟨hnocrawl u hu, ?_⟩
    rw [k1 u (by rw [hinit]; exact hu), hinit]
  · intro u hu hmu
    rw [hcon2]
    exact List.mem_append_left _ (k4 u hu (by rw [hinit]; exact hmu))
  · refine ⟨_, rfl, ?_⟩
    rw [hinit] at k5
    have h0 : (initialState (finish args s1).disk).skip = 0 := rfl
    rw [h0] at k5
    simpa using k5
  · intro hallrec
    have hsk := forLoop_all_skipped paths env2 args hinc urls 0
      (initialState (finish args s1).disk)
      (fun u hu => ⟨hparse2 u hu, by rw [hinit]; exact hallrec u hu⟩)
    rw [hl2] at hsk
    obtain ⟨hs2, -⟩ := Prod.mk.inj hsk
    refine ⟨?_, ?_, ?_, ?_⟩
    · intro u hc
      rw [hcon2, hs2] at hc
      simp [initialState] at hc
    · rw [hs2]; exact hinit
    · show s2.failures = s1.failures
      rw [hs2]; exact hinitf
    · rw [hs2]; simp [finish, initialState]


theorem C10_second_incremental_run_skips_recorded_urls_witness :
    "--all" ∉ ([] : List String) ∧ "--update" ∉ ([] : List String) ∧
    "--retry-failures" ∉ ([] : List String) ∧
    (main examplePaths friendlyEnv [] ["https://a.test/"] emptyDisk).exit = .completed ∧
    (secondRun examplePaths friendlyEnv friendlyEnv [] ["https://a.test/"] emptyDisk).exit
      = .completed ∧
    (secondRun examplePaths friendlyEnv friendlyEnv [] ["https://a.test/"]
      emptyDisk).state.disk.reportFile
      = some { args := [], summary := { success := 0, skip := 1, fail := 0 } } :=
  have h := C10_second_incremental_run_skips_recorded_urls examplePaths friendlyEnv friendlyEnv
    [] ["https://a.test/"] emptyDisk (by decide) (by decide) (by decide) rfl (by decide)
  ⟨by decide, by decide, by decide, by decide, h.1, (h.2.2.2.2 (by decide)).2.2.2⟩

/-- C10 fails as stated: when the only URL failed in the first incremental run, the
second incremental run visits it again (a `Crawling` line is printed), and if the page now
loads the metadata map changes and the summary is success 1, skip 0, fail 0. -/
theorem C10_second_run_visits_the_urls_that_failed :
    (main examplePaths hostileEnv [] ["https://a.test/"] emptyDisk).exit = .completed ∧
    (secondRun examplePaths hostileEnv hostileEnv [] ["https://a.test/"] emptyDisk).exit
      = .completed ∧
    LogLine.crawling "https://a.test/" ∈
      (secondRun examplePaths hostileEnv hostileEnv [] ["https://a.test/"]
        emptyDisk).state.console ∧
    (main examplePaths hostileEnv [] ["https://a.test/"] emptyDisk).state.metaData = [] ∧
    JsObject.has (secondRun examplePaths hostileEnv friendlyEnv [] ["https://a.test/"]
      emptyDisk).state.metaData "https://a.test/" = true ∧
    (secondRun examplePaths hostileEnv friendlyEnv [] ["https://a.test/"]
      emptyDisk).state.disk.reportFile
      = some { args := [], summary := { success := 1, skip := 0, fail := 0 } } := by
  decide

/-- C9: assume that the outcome of visiting a URL is a fixed function `page` of the URL
(in the uninterrupted run, in the interrupted run and in the resumed run alike), that the
URL parser is the same in the three runs, and that every target URL parses, so that the
runs can complete.  Then for every mode, every initial disk, every URL list and every `k`:
the first `k` target URLs can be processed, and a new run of the same mode started from
the disk as flushed at that point ends without an exception with a stored metadata map and
a stored failure map that hold, key by key and timestamps ignored, the same records as the
maps stored by one uninterrupted run from the initial disk. -/
theorem C9_resuming_after_k_urls_matches_uninterrupted_run (paths : Paths)
    (envU envA envB : Env) (args urls : List String) (d : Disk)
    (page : String → PageScript) (k : Nat)
    (hU : FixedOutcome envU page) (hA : FixedOutcome envA page) (hB : FixedOutcome envB page)
    (hhA : envA.hostname = envU.hostname) (hhB : envB.hostname = envU.hostname)
    (hparse : ∀ u ∈ targetUrls args urls (readFailures d), (envU.hostname u).isSome = true) :
    ∃ sA, forLoop paths envA args 0 ((targetUrls args urls (readFailures d)).take k)
        (announce args (targetUrls args urls (readFailures d)) (initialState d)) = (sA, none) ∧
      (∀ e, (main paths envB args urls sA.disk).exit ≠ .uncaught e) ∧
      (∀ e, (main paths envU args urls d).exit ≠ .uncaught e) ∧
      SameMetaData (readJSON (main paths envB args urls sA.disk).state.disk)
        (readJSON (main paths envU args urls d).state.disk) ∧
      SameFailures (readFailures (main paths envB args urls sA.disk).state.disk)
        (readFailures (main paths envU args urls d).state.disk) := by
  have hparseA : ∀ u ∈ (targetUrls args urls (readFailures d)).take k,
      (envA.hostname u).isSome = true := by
    intro u hu; rw [hhA]; exact hparse u (List.mem_of_mem_take hu)
  obtain ⟨sA, hlA, A1, A2⟩ := forLoop_final paths envA args page hA
    ((targetUrls args urls (readFailures d)).take k) 0
    (announce args (targetUrls args urls (readFailures d)) (initialState d)) hparseA
  obtain ⟨a1, a2, -⟩ := announce_fields args (targetUrls args urls (readFailures d))
    (initialState d)
  rw [a1] at A1 A2
  rw [a2] at A2
  have hsy : Synced sA := forLoop_synced paths envA args _ 0 _ sA none
    (announce_synced args _ d) hlA
  have hM0 : (initialState d).metaData = readJSON d := rfl
  have hF0 : (initialState d).failures = readFailures d := rfl
  rw [hM0] at A1 A2
  rw [hF0] at A2
  -- the targets of the second run
  have H1 : ∀ x, x ∈ targetUrls args urls (readFailures sA.disk) →
      x ∈ targetUrls args urls (readFailures d) := by
    intro x hx
    cases hr : retryFailures args with
    | false => rw [targetUrls_of_not_retry args urls _ _ hr]; exact hx
    | true =>
      rw [targetUrls_of_retry args urls _ hr] at hx ⊢
      by_cases hv : visitedBy args ((targetUrls args urls (readFailures d)).take k)
          (readJSON d) x
      · have := List.mem_of_mem_take hv.1
        rwa [targetUrls_of_retry args urls _ hr] at this
      · rw [JsObject.mem_keys_iff] at hx ⊢
        rw [hsy.2] at hx
        rw [has_iff_get?_ne_none] at hx ⊢
        rwa [(A2 x hv).2] at hx
  have H2 : ∀ x, x ∈ targetUrls args urls (readFailures d) →
      ¬ visitedBy args ((targetUrls args urls (readFailures d)).take k) (readJSON d) x →
      x ∈ targetUrls args urls (readFailures sA.disk) := by
    intro x hx hv
    cases hr : retryFailures args with
    | false => rw [targetUrls_of_not_retry args urls _ _ hr]; exact hx
    | true =>
      rw [targetUrls_of_retry args urls _ hr] at hx ⊢
      rw [JsObject.mem_keys_iff] at hx ⊢
      rw [hsy.2]
      rw [has_iff_get?_ne_none] at hx ⊢
      rwa [(A2 x hv).2]
  have hparseB : ∀ u ∈ targetUrls args urls (readFailures sA.disk),
      (envB.hostname u).isSome = true := by
    intro u hu; rw [hhB]; exact hparse u (H1 u hu)
  obtain ⟨hBexit, B1, B2⟩ := main_final paths envB args urls sA.disk page hB hparseB
  obtain ⟨hUexit, U1, U2⟩ := main_final paths envU args urls d page hU hparse
  rw [hsy.1, hsy.2] at B1 B2
  rw [hsy.2] at H1 H2
  rw [hhB] at B1
  rw [hhA] at A1
  -- key by key
  have hkey : ∀ x,
      (JsObject.get? (readJSON (main paths envB args urls sA.disk).state.disk) x).map
          eraseMetaTime =
        (JsObject.get? (readJSON (main paths envU args urls d).state.disk) x).map
          eraseMetaTime ∧
      (JsObject.get? (readFailures (main paths envB args urls sA.disk).state.disk) x).map
          eraseFailTime =
        (JsObject.get? (readFailures (main paths envU args urls d).state.disk) x).map
          eraseFailTime := by
    intro x
    by_cases hvB : visitedBy args (targetUrls args urls sA.failures) sA.metaData x
    · -- visited by the second run
      have hvU : visitedBy args (targetUrls args urls (readFailures d)) (readJSON d) x := by
        refine ⟨H1 x hvB.1, ?_⟩
        rcases hvB.2 with h | h
        · exact Or.inl h
        · by_cases hact : skipCheckActive args = false
          · exact Or.inl hact
          · right
            cases hd0 : JsObject.has (readJSON d) x with
            | false => rfl
            | true =>
              have hnv : ¬ visitedBy args ((targetUrls args urls (readFailures d)).take k)
                  (readJSON d) x := by
                rintro ⟨-, h1 | h1⟩
                · exact hact h1
                · rw [hd0] at h1; cases h1
              have : JsObject.has sA.metaData x = true := by
                simp only [JsObject.has, (A2 x hnv).1]
                exact hd0
              rw [this] at h; cases h
      obtain ⟨b1, b2⟩ := B1 x hvB
      obtain ⟨u1, u2⟩ := U1 x hvU
      rw [b1, b2, u1, u2]
      exact ⟨rfl, rfl⟩
    · obtain ⟨b1, b2⟩ := B2 x hvB
      rw [b1, b2]
      by_cases hvA : visitedBy args ((targetUrls args urls (readFailures d)).take k)
          (readJSON d) x
      · have hvU : visitedBy args (targetUrls args urls (readFailures d)) (readJSON d) x :=
          ⟨List.mem_of_mem_take hvA.1, hvA.2⟩
        obtain ⟨a1', a2'⟩ := A1 x hvA
        obtain ⟨u1, u2⟩ := U1 x hvU
        rw [a1', a2', u1, u2]
        exact ⟨rfl, rfl⟩
      · have hnU : ¬ visitedBy args (targetUrls args urls (readFailures d)) (readJSON d) x := by
          intro hvU
          apply hvB
          refine ⟨H2 x hvU.1 hvA, ?_⟩
          rcases hvU.2 with h | h
          · exact Or.inl h
          · right
            simp only [JsObject.has, (A2 x hvA).1]
            exact h
        obtain ⟨a1', a2'⟩ := A2 x hvA
        obtain ⟨u1, u2⟩ := U2 x hnU
        rw [a1', a2', u1, u2]
        exact ⟨rfl, rfl⟩
  exact ⟨sA, hlA, hBexit, hUexit, fun x => (hkey x).1, fun x => (hkey x).2⟩


theorem C9_resuming_after_k_urls_matches_uninterrupted_run_witness :
    FixedOutcome mixedEnv mixedPage ∧
    (∀ u ∈ targetUrls [] ["https://a.test/", "https://b.test/"] (readFailures emptyDisk),
      (mixedEnv.hostname u).isSome = true) ∧
    ∃ sA, forLoop examplePaths mixedEnv [] 0
        ((targetUrls [] ["https://a.test/", "https://b.test/"]
          (readFailures emptyDisk)).take 1)
        (announce [] (targetUrls [] ["https://a.test/", "https://b.test/"]
          (readFailures emptyDisk)) (initialState emptyDisk)) = (sA, none) ∧
      (∀ e, (main examplePaths mixedEnv [] ["https://a.test/", "https://b.test/"]
        sA.disk).exit ≠ .uncaught e) ∧
      (∀ e, (main examplePaths mixedEnv [] ["https://a.test/", "https://b.test/"]
        emptyDisk).exit ≠ .uncaught e) ∧
      SameMetaData
        (readJSON (main examplePaths mixedEnv [] ["https://a.test/", "https://b.test/"]
          sA.disk).state.disk)
        (readJSON (main examplePaths mixedEnv [] ["https://a.test/", "https://b.test/"]
          emptyDisk).state.disk) ∧
      SameFailures
        (readFailures (main examplePaths mixedEnv [] ["https://a.test/", "https://b.test/"]
          sA.disk).state.disk)
        (readFailures (main examplePaths mixedEnv [] ["https://a.test/", "https://b.test/"]
          emptyDisk).state.disk) :=
  have hfix : FixedOutcome mixedEnv mixedPage := fun _ u => SameOutcome.refl (mixedPage u)
  have hparse : ∀ u ∈ targetUrls [] ["https://a.test/", "https://b.test/"]
      (readFailures emptyDisk), (mixedEnv.hostname u).isSome = true := by decide
  ⟨hfix, hparse,
    C9_resuming_after_k_urls_matches_uninterrupted_run examplePaths mixedEnv mixedEnv mixedEnv
      [] ["https://a.test/", "https://b.test/"] emptyDisk mixedPage 1 hfix hfix hfix rfl rfl
      hparse⟩

end Crawler
